import Mathlib

/-!
Shallow embedding of the TournamentBraacket bracket engine.

The source is a browser app storing records in localStorage collections
(`js/database.js`: `DB`), with three services: `TournamentService`
(part_000), `ParticipantService` (part_001) and `BracketService`
(part_002).  The embedding models the collections as lists of records in
a `State`, in insertion order, exactly as `DB` keeps them:
`DB.insert` appends, `DB.update` merges fields into the first record
with the given id (ids are produced by `DB.generateId`; modelled by a
`nextId` counter), `DB.deleteWhere` filters, `DB.find` filters in stored
order, `DB.getById` returns the first record with the id.

JavaScript `Array.prototype.sort` with a consistent comparator `c` is a
stable sort; its output is the unique stably-sorted permutation, which
we model with `List.insertionSort r` where `r a b ↔ c a b ≤ 0`
(insertion sort is stable, and any two stable sorts agree).

Errors are thrown synchronously; a thrown error aborts the current call
but earlier writes persist, so every operation returns
`Except Err α × State`: the state component carries all writes performed
before the throw.  `Err.nullDeref` models a JavaScript `TypeError` from
reading a property of `null` (e.g. `tournament.totalRounds` when the
tournament lookup missed).  `console.error` messages are collected in
`State.errlog`; `console.log` chatter, timestamps (`createdAt` /
`updatedAt`), and display-only fields (schedule, venue, notes, round
names) are not modelled.  Scores are modelled as integers.
-/

/-- Match status: `pending / upcoming / live / completed` (BracketService.STATUSES). -/
inductive MStatus
  | pending
  | upcoming
  | live
  | completed
deriving Repr, DecidableEq

/-- Tournament status: `draft / registration / ongoing / completed` (TournamentService.STATUSES). -/
inductive TStatus
  | draft
  | registration
  | ongoing
  | completed
deriving Repr, DecidableEq

/-- Participant status: `active / eliminated / withdrawn` (ParticipantService.STATUSES). -/
inductive PStatus
  | active
  | eliminated
  | withdrawn
deriving Repr, DecidableEq

/-- A tournament record (the fields the bracket engine reads and writes). -/
structure Tournament where
  id : Nat
  participantCount : Nat
  totalRounds : Nat
  currentRound : Nat
  status : TStatus
  endDate : Option String
deriving Repr, DecidableEq

/-- A participant record.  `seed` is `null` or a number in the source
(`0` is falsy in JavaScript, like `null`); `none` models `null`. -/
structure Participant where
  id : Nat
  tournamentId : Nat
  seed : Option Int
  status : PStatus
  eliminatedAtRound : Option Nat
deriving Repr, DecidableEq

/-- A match record as created by `BracketService.generate`. -/
structure Match where
  id : Nat
  tournamentId : Nat
  round : Nat
  matchNumber : Nat
  participant1Id : Option Nat
  participant2Id : Option Nat
  winnerId : Option Nat
  score1 : Option Int
  score2 : Option Int
  status : MStatus
deriving Repr, DecidableEq

/-- A tournament result record as created by `BracketService.finalizeTournament`. -/
structure TResult where
  id : Nat
  tournamentId : Nat
  championId : Nat
  runnerUpId : Nat
  thirdPlaceIds : List Nat
  totalMatches : Nat
  totalParticipants : Nat
deriving Repr, DecidableEq

/-- The whole record store (`DB.KEYS.{TOURNAMENTS,PARTICIPANTS,MATCHES,RESULTS}`),
plus the id generator and the `console.error` log. -/
structure State where
  tournaments : List Tournament
  participants : List Participant
  «matches» : List Match
  results : List TResult
  nextId : Nat
  errlog : List String
deriving Repr, DecidableEq

/-- The error kinds the engine throws.  `nullDeref` models a JavaScript
`TypeError` on property access of `null`. -/
inductive Err
  | notFound
  | alreadyGenerated
  | invalidTopology
  | incompleteRoster
  | matchNotReady
  | incompleteMatch
  | invalidScore
  | drawNotAllowed
  | cannotResetCompleted
  | nullDeref
deriving Repr, DecidableEq

/-- `DB.update`: replace the first list element satisfying `p` by its image
under `f` (the source merges an update object into `items[findIndex p]`;
a miss changes nothing). -/
def updateFirst (p : α → Bool) (f : α → α) : List α → List α
  | [] => []
  | x :: xs => if p x then f x :: xs else x :: updateFirst p f xs

/-- `DB.getById(TOURNAMENTS, id)`. -/
def State.findTournament (s : State) (id : Nat) : Option Tournament :=
  s.tournaments.find? (fun t => t.id == id)

/-- `DB.getById(MATCHES, id)`. -/
def State.findMatch (s : State) (id : Nat) : Option Match :=
  s.«matches».find? (fun m => m.id == id)

/-- `DB.getById(PARTICIPANTS, id)`. -/
def State.findParticipant (s : State) (id : Nat) : Option Participant :=
  s.participants.find? (fun p => p.id == id)

/-- `DB.update(TOURNAMENTS, id, …)`. -/
def State.updTournament (s : State) (id : Nat) (f : Tournament → Tournament) : State :=
  { s with tournaments := updateFirst (fun t => t.id == id) f s.tournaments }

/-- `DB.update(MATCHES, id, …)`. -/
def State.updMatch (s : State) (id : Nat) (f : Match → Match) : State :=
  { s with «matches» := updateFirst (fun m => m.id == id) f s.«matches» }

/-- `DB.update(PARTICIPANTS, id, …)`. -/
def State.updParticipant (s : State) (id : Nat) (f : Participant → Participant) : State :=
  { s with participants := updateFirst (fun p => p.id == id) f s.participants }

/-- JavaScript array indexing `xs[i]` for a possibly negative index
(an out-of-range or negative index reads `undefined`, modelled `none`). -/
def listGetInt (xs : List α) (i : Int) : Option α :=
  if i < 0 then none else xs[i.toNat]?

/-- JavaScript truthiness of a `seed` field: `null` and `0` are falsy. -/
def seedTruthy : Option Int → Bool
  | some sd => sd != 0
  | none => false

/-- `a.seed || 999` (ParticipantService.getByTournament's sort key). -/
def seedOr999 : Option Int → Int
  | some sd => if sd == 0 then 999 else sd
  | none => 999

/-- The `(a.seed || 999) - (b.seed || 999)` comparator of
`ParticipantService.getByTournament`, as the relation `c(a,b) ≤ 0`. -/
def seedKeyLE (a b : Participant) : Prop :=
  seedOr999 a.seed ≤ seedOr999 b.seed

instance : DecidableRel seedKeyLE :=
  fun a b => inferInstanceAs (Decidable (seedOr999 a.seed ≤ seedOr999 b.seed))

/-- `ParticipantService.getByTournament`: the tournament's participants in
stored order, stably sorted by `(a.seed || 999) - (b.seed || 999)`. -/
def ParticipantService.getByTournament (s : State) (tournamentId : Nat) : List Participant :=
  List.insertionSort seedKeyLE (s.participants.filter (fun p => p.tournamentId == tournamentId))

/-- `ParticipantService.eliminate`: mark the participant `eliminated` at the
given round (`DB.update` misses silently if the id is absent). -/
def ParticipantService.eliminate (id : Nat) (round : Nat) (s : State) : State :=
  s.updParticipant id (fun p => { p with status := .eliminated, eliminatedAtRound := some round })

/-- `BracketService.isPowerOfTwo`: `n > 0 && (n & (n - 1)) === 0`. -/
def BracketService.isPowerOfTwo (n : Nat) : Bool :=
  n > 0 && (n &&& (n - 1)) == 0

/-- `Math.log2`, fuel-based so that it is structurally recursive
(exact on the powers of two it is applied to). -/
def BracketService.mathLog2Fuel : Nat → Nat → Nat
  | 0, _ => 0
  | fuel + 1, n => if n ≥ 2 then mathLog2Fuel fuel (n / 2) + 1 else 0

/-- `Math.log2 n` (exact for `n` a power of two, the only use in the engine). -/
def BracketService.mathLog2 (n : Nat) : Nat :=
  BracketService.mathLog2Fuel n n

/-- One match placeholder as inserted by the generation loop of
`BracketService.generate`. -/
def BracketService.mkMatch (tournamentId round matchNumber mid : Nat) : Match :=
  { id := mid, tournamentId := tournamentId, round := round, matchNumber := matchNumber,
    participant1Id := none, participant2Id := none, winnerId := none,
    score1 := none, score2 := none, status := .pending }

/-- The nested generation loop of `BracketService.generate`: for each round
`r` in `rounds` insert `participantCount / 2^r` placeholder matches,
numbering them sequentially and drawing fresh ids. -/
def BracketService.generateLoop (tournamentId participantCount : Nat) :
    List Nat → Nat → Nat → List Match
  | [], _, _ => []
  | r :: rest, matchNumber, nid =>
    let matchesInRound := participantCount / 2 ^ r
    ((List.range matchesInRound).map
        (fun i => BracketService.mkMatch tournamentId r (matchNumber + i) (nid + i)))
      ++ BracketService.generateLoop tournamentId participantCount rest
          (matchNumber + matchesInRound) (nid + matchesInRound)

/-- `BracketService.generate`: build the whole bracket for a `draft`
tournament whose participant count is a power of two, then set the
tournament to `registration` (also storing `totalRounds`). -/
def BracketService.generate (tournamentId : Nat) (s : State) : Except Err (List Match) × State :=
  match s.findTournament tournamentId with
  | none => (.error .notFound, s)
  | some t =>
    if t.status != .draft then (.error .alreadyGenerated, s)
    else if !BracketService.isPowerOfTwo t.participantCount then (.error .invalidTopology, s)
    else
      let totalRounds := BracketService.mathLog2 t.participantCount
      let ms := BracketService.generateLoop tournamentId t.participantCount
                  (List.range' 1 totalRounds) 1 s.nextId
      let s1 := { s with «matches» := s.«matches» ++ ms, nextId := s.nextId + ms.length }
      let s2 := s1.updTournament tournamentId
                  (fun u => { u with status := .registration, totalRounds := totalRounds })
      (.ok ms, s2)

/-- The second sort of `BracketService.assignParticipants`
(`a.seed && b.seed ? a.seed - b.seed : a.seed ? -1 : b.seed ? 1 : 0`),
as the relation `c(a,b) ≤ 0`: seeded before unseeded, seeded by seed. -/
def seedCmpLE (a b : Participant) : Prop :=
  if seedTruthy a.seed then
    if seedTruthy b.seed then a.seed.getD 0 ≤ b.seed.getD 0 else True
  else
    if seedTruthy b.seed then False else True

instance : DecidableRel seedCmpLE := fun a b => by
  unfold seedCmpLE
  split
  · split
    · exact inferInstanceAs (Decidable (_ ≤ _))
    · exact inferInstanceAs (Decidable True)
  · split
    · exact inferInstanceAs (Decidable False)
    · exact inferInstanceAs (Decidable True)

/-- The `a.matchNumber - b.matchNumber` comparator, as the relation `c(a,b) ≤ 0`. -/
def matchNumberLE (a b : Match) : Prop :=
  a.matchNumber ≤ b.matchNumber

instance : DecidableRel matchNumberLE :=
  fun a b => inferInstanceAs (Decidable (a.matchNumber ≤ b.matchNumber))

instance : IsTotal Match matchNumberLE :=
  ⟨fun a b => Nat.le_total a.matchNumber b.matchNumber⟩

instance : IsTrans Match matchNumberLE :=
  ⟨fun _ _ _ => Nat.le_trans⟩

instance : IsTotal Participant seedCmpLE :=
  ⟨fun a b => by
    unfold seedCmpLE
    by_cases ha : seedTruthy a.seed <;> by_cases hb : seedTruthy b.seed <;>
      simp [ha, hb] <;> omega⟩

instance : IsTrans Participant seedCmpLE :=
  ⟨fun a b c hab hbc => by
    unfold seedCmpLE at hab hbc ⊢
    by_cases ha : seedTruthy a.seed <;> by_cases hb : seedTruthy b.seed <;>
      by_cases hc : seedTruthy c.seed <;>
      (try simp [ha, hb] at hab) <;> (try simp [hb, hc] at hbc) <;>
      (try simp [ha, hc]) <;> (try omega)⟩

/-- `BracketService.createSeedPairings`: pair `i` is
`(participants[i], participants[n - 1 - i])` for `i = 0 .. n/2 - 1`
(the indices are always in range for those `i`; the default never shows). -/
def BracketService.createSeedPairings (participants : List Participant) :
    List (Participant × Participant) :=
  let n := participants.length
  (List.range (n / 2)).map (fun i =>
    (participants.getD i { id := 0, tournamentId := 0, seed := none,
                           status := .active, eliminatedAtRound := none },
     participants.getD (n - 1 - i) { id := 0, tournamentId := 0, seed := none,
                                     status := .active, eliminatedAtRound := none }))

/-- The `pairedParticipants.forEach((pair, index) => …)` loop of
`BracketService.assignParticipants`: write pair `index` into first-round
match `index` (skipping indices with no such match) and mark it `upcoming`. -/
def BracketService.assignLoop (firstRoundMatches : List Match) :
    List (Participant × Participant) → Nat → State → State
  | [], _, st => st
  | pair :: rest, i, st =>
    let st' := match firstRoundMatches[i]? with
      | some fm => st.updMatch fm.id (fun mm =>
          { mm with participant1Id := some pair.1.id,
                    participant2Id := some pair.2.id,
                    status := .upcoming })
      | none => st
    BracketService.assignLoop firstRoundMatches rest (i + 1) st'

/-- `BracketService.assignParticipants`: sort the roster, pair it
1-vs-N, and write the pairs into the first-round matches (ordered by
`matchNumber`).  Fails when the roster size differs from
`participantCount`.  Returns the first-round matches in stored order. -/
def BracketService.assignParticipants (tournamentId : Nat) (s : State) :
    Except Err (List Match) × State :=
  match s.findTournament tournamentId with
  | none => (.error .notFound, s)
  | some t =>
    let participants := ParticipantService.getByTournament s tournamentId
    if participants.length != t.participantCount then (.error .incompleteRoster, s)
    else
      let firstRoundMatches := List.insertionSort matchNumberLE
        (s.«matches».filter (fun m => m.tournamentId == tournamentId && m.round == 1))
      let sortedParticipants := List.insertionSort seedCmpLE participants
      let pairedParticipants := BracketService.createSeedPairings sortedParticipants
      let s1 := BracketService.assignLoop firstRoundMatches pairedParticipants 0 s
      (.ok (s1.«matches».filter (fun m => m.tournamentId == tournamentId && m.round == 1)), s1)

/-- The pure core of `BracketService.getFirstMatchNumberOfRound`:
`1 + Σ_{r = 1}^{round - 1} participantCount / 2^r`, computed by the
source's `for` loop. -/
def BracketService.firstMatchNumberCore (participantCount round : Nat) : Nat :=
  (List.range' 1 (round - 1)).foldl (fun acc r => acc + participantCount / 2 ^ r) 1

/-- `BracketService.getFirstMatchNumberOfRound` (reads
`tournament.participantCount`; crashes on a missing tournament). -/
def BracketService.getFirstMatchNumberOfRound (tournamentId round : Nat) (s : State) :
    Except Err Nat :=
  match s.findTournament tournamentId with
  | none => .error .nullDeref
  | some t => .ok (BracketService.firstMatchNumberCore t.participantCount round)

/-- `BracketService.advanceWinner`: compute the winner's slot in the next
round and write it.  `m` is the match object as fetched before the score
update (only its immutable fields are read).  When the destination match
is missing the source does `console.error('Next match not found'); return`
— it logs and returns normally, it does not throw.  (The source also
computes `firstMatchOfRound` and `nextMatchNumber`, both dead code,
omitted here.) -/
def BracketService.advanceWinner (m : Match) (winnerId : Nat) (s : State) :
    Except Err Unit × State :=
  match s.findTournament m.tournamentId with
  | none => (.error .nullDeref, s)
  | some t =>
    let nextRound := m.round + 1
    if nextRound > t.totalRounds then (.ok (), s)
    else
      let matchIndexInRound : Int :=
        (m.matchNumber : Int) - (BracketService.firstMatchNumberCore t.participantCount m.round : Int)
      let nextMatchIndex : Int := Int.fdiv matchIndexInRound 2
      let nextMatches := List.insertionSort matchNumberLE
        (s.«matches».filter (fun mm => mm.tournamentId == m.tournamentId && mm.round == nextRound))
      match listGetInt nextMatches nextMatchIndex with
      | none => (.ok (), { s with errlog := "Next match not found" :: s.errlog })
      | some nextMatch =>
        match s.«matches».find? (fun x => x.id == nextMatch.id) with
        | none => (.ok (), s)
        | some currentData =>
          let updatedData := if Int.tmod matchIndexInRound 2 == 0
            then { currentData with participant1Id := some winnerId }
            else { currentData with participant2Id := some winnerId }
          let withStatus := if updatedData.participant1Id.isSome && updatedData.participant2Id.isSome
            then { updatedData with status := .upcoming }
            else updatedData
          (.ok (), s.updMatch nextMatch.id (fun _ => withStatus))

/-- `BracketService.updateCurrentRound`: set `currentRound` to the first
round in `1..totalRounds` whose matches are not all `completed`
(update only on change; no round found leaves the tournament alone). -/
def BracketService.updateCurrentRound (tournamentId : Nat) (s : State) :
    Except Err Unit × State :=
  match s.findTournament tournamentId with
  | none => (.error .nullDeref, s)
  | some t =>
    let tMatches := s.«matches».filter (fun m => m.tournamentId == tournamentId)
    match (List.range' 1 t.totalRounds).find? (fun round =>
        !((tMatches.filter (fun m => m.round == round)).all
            (fun m => m.status == .completed))) with
    | none => (.ok (), s)
    | some round =>
      if t.currentRound != round then
        (.ok (), s.updTournament tournamentId (fun u => { u with currentRound := round }))
      else (.ok (), s)

/-- `BracketService.finalizeTournament`: insert the single result record
(champion, runner-up, semifinal losers as third place, summary counts)
and close the tournament. -/
def BracketService.finalizeTournament (tournamentId championId runnerUpId : Nat)
    (today : String) (s : State) : Except Err Unit × State :=
  match s.findTournament tournamentId with
  | none => (.error .nullDeref, s)
  | some t =>
    let tMatches := s.«matches».filter (fun m => m.tournamentId == tournamentId)
    let semiFinalMatches := tMatches.filter
      (fun m => (m.round : Int) == (t.totalRounds : Int) - 1)
    let thirdPlaceIds := ((semiFinalMatches.filter (fun m => m.winnerId.isSome)).map
        (fun m => if m.participant1Id == m.winnerId then m.participant2Id else m.participant1Id)
      ).filterMap id
    let res : TResult :=
      { id := s.nextId, tournamentId := tournamentId, championId := championId,
        runnerUpId := runnerUpId, thirdPlaceIds := thirdPlaceIds,
        totalMatches := tMatches.length, totalParticipants := t.participantCount }
    let s1 := { s with results := s.results ++ [res], nextId := s.nextId + 1 }
    let s2 := s1.updTournament tournamentId
      (fun u => { u with status := .completed, currentRound := t.totalRounds,
                         endDate := some today })
    (.ok (), s2)

/-- `BracketService.updateScore`: validate, record the score and winner,
eliminate the loser, advance the winner, then finalize (final) or update
the current round (otherwise).  `today` stands for the current date the
source reads from `new Date()`.  The source returns a resolved view of
the match (`this.getMatch`), a pure read not modelled here. -/
def BracketService.updateScore (matchId : Nat) (score1 score2 : Int) (today : String)
    (s : State) : Except Err Unit × State :=
  match s.findMatch matchId with
  | none => (.error .notFound, s)
  | some m =>
    if m.status == .pending then (.error .matchNotReady, s)
    else match m.participant1Id, m.participant2Id with
    | some p1, some p2 =>
      if score1 < 0 || score2 < 0 then (.error .invalidScore, s)
      else if score1 == score2 then (.error .drawNotAllowed, s)
      else
        let winnerId := if score1 > score2 then p1 else p2
        let loserId := if score1 > score2 then p2 else p1
        let s1 := s.updMatch matchId (fun mm =>
          { mm with score1 := some score1, score2 := some score2,
                    winnerId := some winnerId, status := .completed })
        let tournament? := s1.findTournament m.tournamentId
        let s2 := ParticipantService.eliminate loserId m.round s1
        match BracketService.advanceWinner m winnerId s2 with
        | (.error e, s3) => (.error e, s3)
        | (.ok _, s3) =>
          match tournament? with
          | none => (.error .nullDeref, s3)
          | some t =>
            if m.round == t.totalRounds then
              match BracketService.finalizeTournament m.tournamentId winnerId loserId today s3 with
              | (.error e, s4) => (.error e, s4)
              | (.ok _, s4) => (.ok (), s4)
            else
              match BracketService.updateCurrentRound m.tournamentId s3 with
              | (.error e, s4) => (.error e, s4)
              | (.ok _, s4) => (.ok (), s4)
    | _, _ => (.error .incompleteMatch, s)

/-- `BracketService.reset`: unless the tournament is `completed`, delete its
matches and results, restore its participants to `active`, and return the
tournament to `draft` at round 1. -/
def BracketService.reset (tournamentId : Nat) (s : State) : Except Err Unit × State :=
  match s.findTournament tournamentId with
  | none => (.error .notFound, s)
  | some t =>
    if t.status == .completed then (.error .cannotResetCompleted, s)
    else
      let s1 := { s with «matches» := s.«matches».filter (fun m => !(m.tournamentId == tournamentId)) }
      let s2 := { s1 with results := s1.results.filter (fun r => !(r.tournamentId == tournamentId)) }
      let participants := ParticipantService.getByTournament s2 tournamentId
      let s3 := participants.foldl (fun st p =>
          st.updParticipant p.id (fun q => { q with status := .active, eliminatedAtRound := none })) s2
      let s4 := s3.updTournament tournamentId
        (fun u => { u with status := .draft, currentRound := 1 })
      (.ok (), s4)

/-! ### Concrete fixtures: a four-participant tournament driven through the
whole engine (they realise the end-to-end scenario of the specification). -/

/-- A four-participant tournament in `draft`. -/
def exTournament : Tournament :=
  { id := 1, participantCount := 4, totalRounds := 2, currentRound := 1,
    status := .draft, endDate := none }

/-- Participant `10 + i` of the fixture tournament, seeded `sd`. -/
def exParticipant (i : Nat) (sd : Int) : Participant :=
  { id := 10 + i, tournamentId := 1, seed := some sd, status := .active,
    eliminatedAtRound := none }

/-- The fixture tournament before bracket generation: four participants
seeded 1..4, no matches. -/
def exDraft : State :=
  { tournaments := [exTournament],
    participants := [exParticipant 1 1, exParticipant 2 2, exParticipant 3 3, exParticipant 4 4],
    «matches» := [], results := [], nextId := 100, errlog := [] }

/-- After `generate`: three pending matches (ids 100, 101 in round 1 and
102 in round 2), tournament in `registration`. -/
def exRegistration : State := (BracketService.generate 1 exDraft).2

/-- After `assignParticipants`: round 1 pairs seed 1 with seed 4 (match 100)
and seed 2 with seed 3 (match 101). -/
def exAssigned : State := (BracketService.assignParticipants 1 exRegistration).2

/-- After scoring match 100 as 3-1: participant 11 (seed 1) advances. -/
def exAfterM1 : State := (BracketService.updateScore 100 3 1 "2024-01-06" exAssigned).2

/-- After scoring match 101 as 0-2: participant 13 (seed 3) advances. -/
def exAfterM2 : State := (BracketService.updateScore 101 0 2 "2024-01-06" exAfterM1).2

/-- After scoring the final (match 102) as 2-1: participant 11 champion,
one result record, tournament `completed`. -/
def exCompleted : State := (BracketService.updateScore 102 2 1 "2024-01-07" exAfterM2).2

/-- After re-scoring the already `completed` final as 0-3. -/
def exRescored : State := (BracketService.updateScore 102 0 3 "2024-01-08" exCompleted).2

/-- The assigned fixture with the round-2 match deleted: a corrupt bracket
whose round-1 matches have no destination. -/
def exMissingDest : State :=
  { exAssigned with «matches» := exAssigned.«matches».filter (fun m => m.round == 1) }

/-! ### Generic lemmas about the record-store primitives -/

theorem updateFirst_length (p : α → Bool) (f : α → α) :
    ∀ l : List α, (updateFirst p f l).length = l.length
  | [] => rfl
  | x :: xs => by
    by_cases h : p x <;> simp [updateFirst, h, updateFirst_length p f xs]

theorem updateFirst_of_find?_eq_none (p : α → Bool) (f : α → α) :
    ∀ {l : List α}, l.find? p = none → updateFirst p f l = l
  | [], _ => rfl
  | x :: xs, h => by
    rw [List.find?_cons] at h
    cases hx : p x with
    | true => simp [hx] at h
    | false =>
      simp only [hx] at h
      simp [updateFirst, hx, updateFirst_of_find?_eq_none p f h]

theorem find?_updateFirst_self (p : α → Bool) (f : α → α) :
    ∀ {l : List α} {a : α}, l.find? p = some a → p (f a) = true →
      (updateFirst p f l).find? p = some (f a)
  | x :: xs, a, h, hfa => by
    rw [List.find?_cons] at h
    cases hx : p x with
    | true =>
      simp only [hx, Option.some.injEq] at h
      subst h
      simp [updateFirst, hx, List.find?_cons, hfa]
    | false =>
      simp only [hx] at h
      simp [updateFirst, hx, List.find?_cons, find?_updateFirst_self p f h hfa]

theorem find?_updateFirst_of_ne (p q : α → Bool) (f : α → α) :
    ∀ {l : List α} {a : α}, l.find? p = some a → q a = false → q (f a) = false →
      (updateFirst p f l).find? q = l.find? q
  | x :: xs, a, h, hqa, hqfa => by
    rw [List.find?_cons] at h
    cases hx : p x with
    | true =>
      simp only [hx, Option.some.injEq] at h
      subst h
      simp [updateFirst, hx, List.find?_cons, hqa, hqfa]
    | false =>
      simp only [hx] at h
      cases hqx : q x with
      | true => simp [updateFirst, hx, List.find?_cons, hqx]
      | false =>
        simp [updateFirst, hx, List.find?_cons, hqx,
          find?_updateFirst_of_ne p q f h hqa hqfa]

theorem filter_updateFirst_of_ne (p q : α → Bool) (f : α → α) :
    ∀ {l : List α} {a : α}, l.find? p = some a → q a = false → q (f a) = false →
      (updateFirst p f l).filter q = l.filter q
  | x :: xs, a, h, hqa, hqfa => by
    rw [List.find?_cons] at h
    cases hx : p x with
    | true =>
      simp only [hx, Option.some.injEq] at h
      subst h
      simp [updateFirst, hx, List.filter_cons, hqa, hqfa]
    | false =>
      simp only [hx] at h
      simp [updateFirst, hx, List.filter_cons,
        filter_updateFirst_of_ne p q f h hqa hqfa]

theorem filter_length_updateFirst (p q : α → Bool) (f : α → α) :
    ∀ {l : List α} {a : α}, l.find? p = some a → q (f a) = q a →
      ((updateFirst p f l).filter q).length = (l.filter q).length
  | x :: xs, a, h, hq => by
    rw [List.find?_cons] at h
    cases hx : p x with
    | true =>
      simp only [hx, Option.some.injEq] at h
      subst h
      simp only [updateFirst, hx, if_true]
      rw [List.filter_cons, List.filter_cons, hq]
      cases hqx : q x <;> simp
    | false =>
      simp only [hx] at h
      by_cases hqx : q x <;>
        simp [updateFirst, hx, List.filter_cons, hqx,
          filter_length_updateFirst p q f h hq]

/-- In a list whose `g`-keys are pairwise distinct, `find?` by the key of a
member returns exactly that member. -/
theorem find?_of_nodup_key {g : α → Nat} :
    ∀ {l : List α} {a : α}, (l.map g).Nodup → a ∈ l →
      l.find? (fun x => g x == g a) = some a
  | x :: xs, a, hnd, hmem => by
    rw [List.map_cons, List.nodup_cons] at hnd
    rcases List.mem_cons.mp hmem with rfl | hmem'
    · simp [List.find?_cons]
    · have hne : (g x == g a) = false := by
        simp only [beq_eq_false_iff_ne, ne_eq]
        intro hcontra
        exact hnd.1 (hcontra ▸ List.mem_map_of_mem g hmem')
      simp [List.find?_cons, hne, find?_of_nodup_key hnd.2 hmem']

theorem find?_range'_eq_some {pred : Nat → Bool} :
    ∀ {len a r0 : Nat}, a ≤ r0 → r0 < a + len → pred r0 = true →
      (∀ b, a ≤ b → b < r0 → pred b = false) →
      (List.range' a len).find? pred = some r0
  | 0, _, _, hle, hlt, _, _ => by omega
  | len + 1, a, r0, hle, hlt, hp, hbelow => by
    rw [List.range'_succ, List.find?_cons]
    rcases Nat.eq_or_lt_of_le hle with rfl | hlt'
    · simp [hp]
    · have ha : pred a = false := hbelow a (Nat.le_refl a) hlt'
      simp only [ha]
      exact find?_range'_eq_some hlt' (by omega) hp
        (fun b hb hblt => hbelow b (by omega) hblt)

theorem foldl_add_eq_sum (f : β → Nat) :
    ∀ (l : List β) (c : Nat), l.foldl (fun acc x => acc + f x) c = c + (l.map f).sum
  | [], c => by simp
  | x :: xs, c => by
    simp [List.foldl_cons, foldl_add_eq_sum f xs (c + f x), Nat.add_assoc]

/-! ### Projections of the state transformers -/

@[simp] theorem updMatch_tournaments (s : State) (i : Nat) (f : Match → Match) :
    (s.updMatch i f).tournaments = s.tournaments := rfl

@[simp] theorem updMatch_participants (s : State) (i : Nat) (f : Match → Match) :
    (s.updMatch i f).participants = s.participants := rfl

@[simp] theorem updMatch_results (s : State) (i : Nat) (f : Match → Match) :
    (s.updMatch i f).results = s.results := rfl

@[simp] theorem updMatch_errlog (s : State) (i : Nat) (f : Match → Match) :
    (s.updMatch i f).errlog = s.errlog := rfl

@[simp] theorem updMatch_nextId (s : State) (i : Nat) (f : Match → Match) :
    (s.updMatch i f).nextId = s.nextId := rfl

@[simp] theorem updMatch_matches (s : State) (i : Nat) (f : Match → Match) :
    (s.updMatch i f).«matches» = updateFirst (fun m => m.id == i) f s.«matches» := rfl

@[simp] theorem updTournament_matches (s : State) (i : Nat) (f : Tournament → Tournament) :
    (s.updTournament i f).«matches» = s.«matches» := rfl

@[simp] theorem updTournament_participants (s : State) (i : Nat) (f : Tournament → Tournament) :
    (s.updTournament i f).participants = s.participants := rfl

@[simp] theorem updTournament_results (s : State) (i : Nat) (f : Tournament → Tournament) :
    (s.updTournament i f).results = s.results := rfl

@[simp] theorem updTournament_errlog (s : State) (i : Nat) (f : Tournament → Tournament) :
    (s.updTournament i f).errlog = s.errlog := rfl

@[simp] theorem updTournament_nextId (s : State) (i : Nat) (f : Tournament → Tournament) :
    (s.updTournament i f).nextId = s.nextId := rfl

@[simp] theorem updTournament_tournaments (s : State) (i : Nat) (f : Tournament → Tournament) :
    (s.updTournament i f).tournaments = updateFirst (fun t => t.id == i) f s.tournaments := rfl

@[simp] theorem updParticipant_tournaments (s : State) (i : Nat) (f : Participant → Participant) :
    (s.updParticipant i f).tournaments = s.tournaments := rfl

@[simp] theorem updParticipant_matches (s : State) (i : Nat) (f : Participant → Participant) :
    (s.updParticipant i f).«matches» = s.«matches» := rfl

@[simp] theorem updParticipant_results (s : State) (i : Nat) (f : Participant → Participant) :
    (s.updParticipant i f).results = s.results := rfl

@[simp] theorem updParticipant_errlog (s : State) (i : Nat) (f : Participant → Participant) :
    (s.updParticipant i f).errlog = s.errlog := rfl

@[simp] theorem updParticipant_nextId (s : State) (i : Nat) (f : Participant → Participant) :
    (s.updParticipant i f).nextId = s.nextId := rfl

@[simp] theorem updParticipant_participants (s : State) (i : Nat) (f : Participant → Participant) :
    (s.updParticipant i f).participants = updateFirst (fun p => p.id == i) f s.participants := rfl

@[simp] theorem eliminate_tournaments (i r : Nat) (s : State) :
    (ParticipantService.eliminate i r s).tournaments = s.tournaments := rfl

@[simp] theorem eliminate_matches (i r : Nat) (s : State) :
    (ParticipantService.eliminate i r s).«matches» = s.«matches» := rfl

@[simp] theorem eliminate_results (i r : Nat) (s : State) :
    (ParticipantService.eliminate i r s).results = s.results := rfl

@[simp] theorem eliminate_errlog (i r : Nat) (s : State) :
    (ParticipantService.eliminate i r s).errlog = s.errlog := rfl

@[simp] theorem eliminate_nextId (i r : Nat) (s : State) :
    (ParticipantService.eliminate i r s).nextId = s.nextId := rfl

theorem eliminate_participants (i r : Nat) (s : State) :
    (ParticipantService.eliminate i r s).participants =
      updateFirst (fun p => p.id == i)
        (fun p => { p with status := .eliminated, eliminatedAtRound := some r })
        s.participants := rfl

/-! ### `Math.log2` and the power-of-two check -/

theorem BracketService.mathLog2Fuel_eq :
    ∀ (fuel n : Nat), n ≤ fuel → BracketService.mathLog2Fuel fuel n = Nat.log2 n
  | 0, n, h => by
    have hn : n = 0 := Nat.le_zero.mp h
    subst hn
    rw [BracketService.mathLog2Fuel, Nat.log2]
    simp
  | fuel + 1, n, h => by
    rw [BracketService.mathLog2Fuel, Nat.log2]
    by_cases h2 : n ≥ 2
    · have ih := BracketService.mathLog2Fuel_eq fuel (n / 2) (by omega)
      simp [h2, ih]
    · simp [h2]

theorem BracketService.mathLog2_eq (n : Nat) :
    BracketService.mathLog2 n = Nat.log2 n :=
  BracketService.mathLog2Fuel_eq n n (Nat.le_refl n)

theorem BracketService.mathLog2_two_pow (k : Nat) :
    BracketService.mathLog2 (2 ^ k) = k := by
  rw [BracketService.mathLog2_eq, Nat.log2_two_pow]

theorem BracketService.isPowerOfTwo_two_pow (k : Nat) :
    BracketService.isPowerOfTwo (2 ^ k) = true := by
  have hand : (2 ^ k) &&& (2 ^ k - 1) = 0 := by
    apply Nat.eq_of_testBit_eq
    intro i
    rw [Nat.testBit_and, Nat.testBit_two_pow, Nat.testBit_two_pow_sub_one,
      Nat.zero_testBit]
    rcases Nat.lt_or_ge i k with h | h
    · simp [Nat.ne_of_gt h]
    · simp [Nat.not_lt.mpr h]
  rw [BracketService.isPowerOfTwo]
  simp [hand, Nat.two_pow_pos]

/-! ### Arithmetic of the bracket topology -/

/-- Sum of the round sizes `participantCount / 2^j` for `j = a, …, a + cnt - 1`. -/
def roundSizeSum (participantCount a cnt : Nat) : Nat :=
  ((List.range' a cnt).map (fun j => participantCount / 2 ^ j)).sum

@[simp] theorem roundSizeSum_zero (N a : Nat) : roundSizeSum N a 0 = 0 := rfl

theorem roundSizeSum_succ_left (N a cnt : Nat) :
    roundSizeSum N a (cnt + 1) = N / 2 ^ a + roundSizeSum N (a + 1) cnt := by
  rw [roundSizeSum, roundSizeSum, List.range'_succ, List.map_cons, List.sum_cons]

theorem roundSizeSum_succ_right (N a cnt : Nat) :
    roundSizeSum N a (cnt + 1) = roundSizeSum N a cnt + N / 2 ^ (a + cnt) := by
  rw [roundSizeSum, roundSizeSum, List.range'_concat]
  simp

theorem two_pow_roundSizeSum :
    ∀ (cnt a k : Nat), 1 ≤ a → a + cnt = k + 1 →
      roundSizeSum (2 ^ k) a cnt = 2 ^ (k + 1 - a) - 1
  | 0, a, k, _, hak => by
    have : a = k + 1 := by omega
    subst this
    simp
  | cnt + 1, a, k, ha, hak => by
    have hak' : a ≤ k := by omega
    rw [roundSizeSum_succ_left,
      two_pow_roundSizeSum cnt (a + 1) k (by omega) (by omega),
      Nat.pow_div hak' (by omega)]
    have h1 : k + 1 - a = (k - a) + 1 := by omega
    have h2 : k + 1 - (a + 1) = k - a := by omega
    have h3 : 0 < 2 ^ (k - a) := Nat.two_pow_pos _
    rw [h1, h2, Nat.pow_succ]
    omega

theorem BracketService.firstMatchNumberCore_eq (N r : Nat) :
    BracketService.firstMatchNumberCore N r = 1 + roundSizeSum N 1 (r - 1) := by
  rw [BracketService.firstMatchNumberCore, foldl_add_eq_sum, roundSizeSum]

theorem BracketService.firstMatchNumberCore_succ (N r : Nat) (hr : 1 ≤ r) :
    BracketService.firstMatchNumberCore N (r + 1) =
      BracketService.firstMatchNumberCore N r + N / 2 ^ r := by
  rw [BracketService.firstMatchNumberCore_eq, BracketService.firstMatchNumberCore_eq]
  have h1 : r + 1 - 1 = (r - 1) + 1 := by omega
  rw [h1, roundSizeSum_succ_right]
  have h2 : 1 + (r - 1) = r := by omega
  rw [h2]
  omega

/-! ### Structure of the generation loop -/

theorem BracketService.generateLoop_length (tid N : Nat) :
    ∀ (rs : List Nat) (mn nid : Nat),
      (BracketService.generateLoop tid N rs mn nid).length =
        (rs.map (fun r => N / 2 ^ r)).sum
  | [], _, _ => rfl
  | r :: rest, mn, nid => by
    rw [BracketService.generateLoop]
    simp [BracketService.generateLoop_length tid N rest]

theorem BracketService.generateLoop_mem (tid N : Nat) :
    ∀ {rs : List Nat} {mn nid : Nat} {mm : Match},
      mm ∈ BracketService.generateLoop tid N rs mn nid →
        mm.tournamentId = tid ∧ mm.round ∈ rs ∧
        mm.participant1Id = none ∧ mm.participant2Id = none ∧
        mm.winnerId = none ∧ mm.score1 = none ∧ mm.score2 = none ∧
        mm.status = .pending
  | r :: rest, mn, nid, mm, hmem => by
    rw [BracketService.generateLoop, List.mem_append] at hmem
    rcases hmem with hblock | hrest
    · rcases List.mem_map.mp hblock with ⟨i, _, rfl⟩
      simp [BracketService.mkMatch]
    · have ih := BracketService.generateLoop_mem tid N hrest
      exact ⟨ih.1, List.mem_cons_of_mem r ih.2.1, ih.2.2⟩

theorem BracketService.generateLoop_map_matchNumber (tid N : Nat) :
    ∀ (rs : List Nat) (mn nid : Nat),
      (BracketService.generateLoop tid N rs mn nid).map (fun mm => mm.matchNumber) =
        List.range' mn ((rs.map (fun r => N / 2 ^ r)).sum)
  | [], _, _ => rfl
  | r :: rest, mn, nid => by
    rw [BracketService.generateLoop]
    simp only [List.map_append, List.map_map,
      BracketService.generateLoop_map_matchNumber tid N rest]
    have hblock : ((List.range (N / 2 ^ r)).map
        ((fun mm => mm.matchNumber) ∘ (fun i => BracketService.mkMatch tid r (mn + i) (nid + i))))
        = List.range' mn (N / 2 ^ r) := by
      rw [List.range'_eq_map_range]
      apply List.map_congr_left
      intro i _
      simp [BracketService.mkMatch]
    rw [hblock, List.map_cons, List.sum_cons, List.range'_append_1]
    congr 1
    omega

theorem BracketService.generateLoop_rounds_le (tid N : Nat)
    {rs : List Nat} {mn nid : Nat} (hrs : rs.Pairwise (· ≤ ·)) :
    (BracketService.generateLoop tid N rs mn nid).Pairwise
      (fun x y => x.round ≤ y.round) := by
  induction rs generalizing mn nid with
  | nil => exact List.Pairwise.nil
  | cons r rest ih =>
    rw [BracketService.generateLoop]
    rw [List.pairwise_cons] at hrs
    apply List.pairwise_append.mpr
    refine ⟨?_, ih hrs.2, ?_⟩
    · apply List.Pairwise.map
      · intro i j (hij : (BracketService.mkMatch tid r (mn + i) (nid + i)).round ≤ _)
        exact hij
      · exact List.Pairwise.imp (fun _ => Nat.le_refl r)
          (List.pairwise_lt_range _)
    · intro x hx y hy
      rcases List.mem_map.mp hx with ⟨i, _, rfl⟩
      have hyr := (BracketService.generateLoop_mem tid N hy).2.1
      exact (show r ≤ y.round from hrs.1 _ hyr)

theorem BracketService.generateLoop_filter_not_mem (tid N : Nat)
    {rs : List Nat} {mn nid r : Nat} (hr : r ∉ rs) :
    (BracketService.generateLoop tid N rs mn nid).filter
      (fun mm => mm.round == r) = [] := by
  rw [List.filter_eq_nil_iff]
  intro mm hmm
  have := (BracketService.generateLoop_mem tid N hmm).2.1
  simp only [beq_iff_eq]
  intro hcontra
  exact hr (hcontra ▸ this)

theorem BracketService.generateLoop_filter_round (tid N : Nat) :
    ∀ (len a mn nid r : Nat), a ≤ r → r < a + len →
      (BracketService.generateLoop tid N (List.range' a len) mn nid).filter
          (fun mm => mm.round == r) =
        (List.range (N / 2 ^ r)).map (fun i =>
          BracketService.mkMatch tid r (mn + roundSizeSum N a (r - a) + i)
            (nid + roundSizeSum N a (r - a) + i))
  | 0, a, mn, nid, r, hle, hlt => by omega
  | len + 1, a, mn, nid, r, hle, hlt => by
    rw [List.range'_succ, BracketService.generateLoop, List.filter_append]
    rcases Nat.eq_or_lt_of_le hle with rfl | hgt
    · have hrest : (BracketService.generateLoop tid N (List.range' (a + 1) len)
          (mn + N / 2 ^ a) (nid + N / 2 ^ a)).filter (fun mm => mm.round == a) = [] := by
        apply BracketService.generateLoop_filter_not_mem
        intro hmem
        have := (List.mem_range'_1.mp hmem).1
        omega
      rw [hrest, List.append_nil]
      have : ∀ i ∈ List.range (N / 2 ^ a),
          (fun mm => mm.round == a) (BracketService.mkMatch tid a (mn + i) (nid + i)) = true := by
        intro i _
        simp [BracketService.mkMatch]
      rw [List.filter_map, List.filter_eq_self.mpr (by
        intro i hi
        simp [Function.comp, BracketService.mkMatch])]
      simp [Nat.sub_self]
    · have hblock : ((List.range (N / 2 ^ a)).map
          (fun i => BracketService.mkMatch tid a (mn + i) (nid + i))).filter
            (fun mm => mm.round == r) = [] := by
        rw [List.filter_eq_nil_iff]
        intro mm hmm
        rcases List.mem_map.mp hmm with ⟨i, _, rfl⟩
        simp [BracketService.mkMatch]
        omega
      rw [hblock, List.nil_append,
        BracketService.generateLoop_filter_round tid N len (a + 1)
          (mn + N / 2 ^ a) (nid + N / 2 ^ a) r (by omega) (by omega)]
      have harith : r - (a + 1) + 1 = r - a := by omega
      have hsum : N / 2 ^ a + roundSizeSum N (a + 1) (r - (a + 1)) = roundSizeSum N a (r - a) := by
        rw [← roundSizeSum_succ_left, harith]
      apply List.map_congr_left
      intro i _
      rw [show mn + N / 2 ^ a + roundSizeSum N (a + 1) (r - (a + 1)) + i
            = mn + roundSizeSum N a (r - a) + i by omega,
        show nid + N / 2 ^ a + roundSizeSum N (a + 1) (r - (a + 1)) + i
            = nid + roundSizeSum N a (r - a) + i by omega]

/-- Helper: the map of `matchNumber` over one round block of placeholders. -/
theorem BracketService.map_matchNumber_block (tid r base nidbase cnt : Nat) :
    ((List.range cnt).map (fun i => BracketService.mkMatch tid r (base + i) (nidbase + i))).map
      (fun mm => mm.matchNumber) = List.range' base cnt := by
  rw [List.map_map, List.range'_eq_map_range]
  apply List.map_congr_left
  intro i _
  simp [BracketService.mkMatch]

/-- Helper: on a `draft` tournament with `2^k` participants, `generate`
succeeds and produces exactly the generation loop's output. -/
theorem BracketService.generate_eq_of_draft (s : State) (tournamentId k : Nat) (t : Tournament)
    (ht : s.findTournament tournamentId = some t)
    (hdraft : t.status = TStatus.draft)
    (hpow : t.participantCount = 2 ^ k) :
    BracketService.generate tournamentId s =
      (.ok (BracketService.generateLoop tournamentId (2 ^ k) (List.range' 1 k) 1 s.nextId),
        State.updTournament
          { s with
              «matches» := s.«matches» ++
                BracketService.generateLoop tournamentId (2 ^ k) (List.range' 1 k) 1 s.nextId,
              nextId := s.nextId +
                (BracketService.generateLoop tournamentId (2 ^ k) (List.range' 1 k) 1 s.nextId).length }
          tournamentId (fun u => { u with status := .registration, totalRounds := k })) := by
  rw [BracketService.generate, ht]
  simp only [hdraft, hpow, BracketService.isPowerOfTwo_two_pow,
    BracketService.mathLog2_two_pow, bne_self_eq_false, Bool.not_false, Bool.false_eq_true,
    if_false, Bool.not_true]

/-- Helper: on a non-`draft` tournament, `generate` fails with the
"already generated" error and changes nothing. -/
theorem BracketService.generate_eq_of_not_draft (s : State) (tournamentId : Nat) (t : Tournament)
    (ht : s.findTournament tournamentId = some t)
    (hst : t.status ≠ TStatus.draft) :
    BracketService.generate tournamentId s = (.error .alreadyGenerated, s) := by
  rw [BracketService.generate, ht]
  have : (t.status != TStatus.draft) = true := by
    simpa using hst
  simp only [this, if_true]

/-- C2: for a `draft` tournament whose participantCount is the power of two
`2^k`, `generate` creates exactly `2^k - 1` matches, `2^k / 2^r` of them in
each round `r = 1..k` (numbered consecutively from
`firstMatchNumberCore` of the round), every created match empty and
`pending`, match numbers sequential from 1 in round-major order, and sets
the tournament to `registration`; on a non-`draft` tournament it fails
with the AlreadyGenerated error and changes nothing. -/
theorem claim_C2_generate (s : State) (tournamentId k : Nat) (t : Tournament)
    (ht : s.findTournament tournamentId = some t)
    (hpow : t.participantCount = 2 ^ k) :
    (t.status ≠ TStatus.draft →
      BracketService.generate tournamentId s = (.error .alreadyGenerated, s)) ∧
    (t.status = TStatus.draft →
      (BracketService.generate tournamentId s).1 =
        .ok (BracketService.generateLoop tournamentId (2 ^ k) (List.range' 1 k) 1 s.nextId) ∧
      (BracketService.generate tournamentId s).2.«matches» =
        s.«matches» ++ BracketService.generateLoop tournamentId (2 ^ k) (List.range' 1 k) 1 s.nextId ∧
      (BracketService.generateLoop tournamentId (2 ^ k) (List.range' 1 k) 1 s.nextId).length
        = 2 ^ k - 1 ∧
      (∀ r, 1 ≤ r → r ≤ k →
        ((BracketService.generateLoop tournamentId (2 ^ k) (List.range' 1 k) 1 s.nextId).filter
            (fun mm => mm.round == r)).length = 2 ^ k / 2 ^ r ∧
        ((BracketService.generateLoop tournamentId (2 ^ k) (List.range' 1 k) 1 s.nextId).filter
            (fun mm => mm.round == r)).map (fun mm => mm.matchNumber)
          = List.range' (BracketService.firstMatchNumberCore (2 ^ k) r) (2 ^ k / 2 ^ r)) ∧
      (∀ mm ∈ BracketService.generateLoop tournamentId (2 ^ k) (List.range' 1 k) 1 s.nextId,
        mm.participant1Id = none ∧ mm.participant2Id = none ∧ mm.winnerId = none ∧
        mm.score1 = none ∧ mm.score2 = none ∧ mm.status = MStatus.pending) ∧
      (BracketService.generateLoop tournamentId (2 ^ k) (List.range' 1 k) 1 s.nextId).map
          (fun mm => mm.matchNumber) = List.range' 1 (2 ^ k - 1) ∧
      (BracketService.generateLoop tournamentId (2 ^ k) (List.range' 1 k) 1 s.nextId).Pairwise
          (fun x y => x.round ≤ y.round) ∧
      (BracketService.generate tournamentId s).2.findTournament tournamentId =
        some { t with status := .registration, totalRounds := k }) := by
  have hsum : ((List.range' 1 k).map (fun r => 2 ^ k / 2 ^ r)).sum = 2 ^ k - 1 := by
    have := two_pow_roundSizeSum k 1 k (Nat.le_refl 1) (by omega)
    rw [roundSizeSum] at this
    simpa using this
  constructor
  · intro hst
    exact BracketService.generate_eq_of_not_draft s tournamentId t ht hst
  · intro hdraft
    have hgen := BracketService.generate_eq_of_draft s tournamentId k t ht hdraft hpow
    refine ⟨by rw [hgen], by rw [hgen]; rfl, ?_, ?_, ?_, ?_, ?_, ?_⟩
    · rw [BracketService.generateLoop_length, hsum]
    · intro r hr1 hrk
      have hblock := BracketService.generateLoop_filter_round tournamentId (2 ^ k) k 1 1
        s.nextId r hr1 (by omega)
      constructor
      · rw [hblock]
        simp
      · rw [hblock, BracketService.map_matchNumber_block,
          BracketService.firstMatchNumberCore_eq]
    · intro mm hmm
      have := BracketService.generateLoop_mem tournamentId (2 ^ k) hmm
      exact ⟨this.2.2.1, this.2.2.2.1, this.2.2.2.2.1, this.2.2.2.2.2.1,
        this.2.2.2.2.2.2.1, this.2.2.2.2.2.2.2⟩
    · rw [BracketService.generateLoop_map_matchNumber, hsum]
    · exact BracketService.generateLoop_rounds_le tournamentId (2 ^ k)
        (List.Pairwise.imp Nat.le_of_lt (List.pairwise_lt_range' 1 k))
    · rw [hgen]
      show ((State.updTournament _ tournamentId _).tournaments.find? _) = _
      rw [updTournament_tournaments]
      apply find?_updateFirst_self
      · exact ht
      · simpa using List.find?_some ht

/-- Witness for C2 at the concrete four-participant draft fixture. -/
theorem claim_C2_generate_witness :
    (exDraft.findTournament 1 = some exTournament ∧
     exTournament.participantCount = 2 ^ 2 ∧
     exTournament.status = TStatus.draft) ∧
    (BracketService.generateLoop 1 (2 ^ 2) (List.range' 1 2) 1 exDraft.nextId).length = 2 ^ 2 - 1 ∧
    (BracketService.generate 1 exDraft).2.findTournament 1 =
      some { exTournament with status := .registration, totalRounds := 2 } := by
  have h := claim_C2_generate exDraft 1 2 exTournament (by decide) (by decide)
  have h2 := h.2 (by decide)
  exact ⟨⟨by decide, by decide, by decide⟩, h2.2.2.1, h2.2.2.2.2.2.2.2⟩

/-- C4: `updateScore` fails with MatchNotReady on a `pending` match, with
IncompleteMatch when a participant slot is empty, with InvalidScore on a
negative score, and with DrawNotAllowed on equal scores — each failure
returned with the state unchanged (the checks precede every write). -/
theorem claim_C4_updateScore_rejections (s : State) (matchId : Nat) (score1 score2 : Int)
    (today : String) (m : Match) (hm : s.findMatch matchId = some m) :
    (m.status = MStatus.pending →
      BracketService.updateScore matchId score1 score2 today s = (.error .matchNotReady, s)) ∧
    (m.status ≠ MStatus.pending → (m.participant1Id = none ∨ m.participant2Id = none) →
      BracketService.updateScore matchId score1 score2 today s = (.error .incompleteMatch, s)) ∧
    (m.status ≠ MStatus.pending → m.participant1Id.isSome → m.participant2Id.isSome →
      (score1 < 0 ∨ score2 < 0) →
      BracketService.updateScore matchId score1 score2 today s = (.error .invalidScore, s)) ∧
    (m.status ≠ MStatus.pending → m.participant1Id.isSome → m.participant2Id.isSome →
      ¬score1 < 0 → ¬score2 < 0 → score1 = score2 →
      BracketService.updateScore matchId score1 score2 today s = (.error .drawNotAllowed, s)) := by
  refine ⟨?_, ?_, ?_, ?_⟩
  · intro hp
    rw [BracketService.updateScore, hm]
    simp [hp]
  · intro hstat hor
    rw [BracketService.updateScore, hm]
    have hsb : (m.status == MStatus.pending) = false := by
      simpa using hstat
    cases hp1 : m.participant1Id with
    | none => simp [hsb, hp1]
    | some a =>
      cases hp2 : m.participant2Id with
      | none => simp [hsb, hp1, hp2]
      | some b =>
        rw [hp1, hp2] at hor
        rcases hor with h | h <;> exact absurd h (by simp)
  · intro hstat h1 h2 hneg
    obtain ⟨a, ha⟩ := Option.isSome_iff_exists.mp h1
    obtain ⟨b, hb⟩ := Option.isSome_iff_exists.mp h2
    rw [BracketService.updateScore, hm]
    have hsb : (m.status == MStatus.pending) = false := by
      simpa using hstat
    have hscore : (score1 < 0 || score2 < 0) = true := by
      rcases hneg with h | h <;> simp [h]
    simp [hsb, ha, hb, hscore]
  · intro hstat h1 h2 hn1 hn2 heq
    obtain ⟨a, ha⟩ := Option.isSome_iff_exists.mp h1
    obtain ⟨b, hb⟩ := Option.isSome_iff_exists.mp h2
    rw [BracketService.updateScore, hm]
    have hsb : (m.status == MStatus.pending) = false := by
      simpa using hstat
    have hscore : (score1 < 0 || score2 < 0) = false := by
      simp [hn1, hn2]
    simp [hsb, ha, hb, hscore, heq]
    omega

/-- Witness for C4: equal scores on a ready fixture match are rejected as a
draw with no state change. -/
theorem claim_C4_updateScore_rejections_witness :
    exAssigned.findMatch 100 = some
      { id := 100, tournamentId := 1, round := 1, matchNumber := 1,
        participant1Id := some 11, participant2Id := some 14, winnerId := none,
        score1 := none, score2 := none, status := .upcoming } ∧
    BracketService.updateScore 100 2 2 "2024-01-06" exAssigned =
      (.error .drawNotAllowed, exAssigned) := by
  have h := claim_C4_updateScore_rejections exAssigned 100 2 2 "2024-01-06"
    { id := 100, tournamentId := 1, round := 1, matchNumber := 1,
      participant1Id := some 11, participant2Id := some 14, winnerId := none,
      score1 := none, score2 := none, status := .upcoming } (by decide)
  exact ⟨by decide, h.2.2.2 (by decide) (by decide) (by decide)
    (by decide) (by decide) rfl⟩

/-- C7: `updateScore` only rejects `pending` matches, so re-scoring the
already `completed` final of the fixture tournament succeeds and inserts a
second Result record for the tournament — the at-most-one-Result invariant
fails under re-scoring. -/
theorem claim_C7_rescoring_final_duplicates_result :
    (exCompleted.findMatch 102).map (fun mm => mm.status) = some MStatus.completed ∧
    (BracketService.updateScore 102 0 3 "2024-01-08" exCompleted).1 = .ok () ∧
    (exCompleted.results.filter (fun r => r.tournamentId == 1)).length = 1 ∧
    (exRescored.results.filter (fun r => r.tournamentId == 1)).length = 2 := by
  refine ⟨by decide, by rfl, by decide, by decide⟩

@[simp] theorem findTournament_updMatch (s : State) (i j : Nat) (f : Match → Match) :
    (s.updMatch i f).findTournament j = s.findTournament j := rfl

@[simp] theorem findTournament_updParticipant (s : State) (i j : Nat) (f : Participant → Participant) :
    (s.updParticipant i f).findTournament j = s.findTournament j := rfl

@[simp] theorem findTournament_eliminate (i r j : Nat) (s : State) :
    (ParticipantService.eliminate i r s).findTournament j = s.findTournament j := rfl

@[simp] theorem findMatch_updTournament (s : State) (i j : Nat) (f : Tournament → Tournament) :
    (s.updTournament i f).findMatch j = s.findMatch j := rfl

@[simp] theorem findMatch_updParticipant (s : State) (i j : Nat) (f : Participant → Participant) :
    (s.updParticipant i f).findMatch j = s.findMatch j := rfl

@[simp] theorem findMatch_eliminate (i r j : Nat) (s : State) :
    (ParticipantService.eliminate i r s).findMatch j = s.findMatch j := rfl

/-- Helper: when the scored match is the final (its round is the last
round), `advanceWinner` returns at once without touching the state. -/
theorem BracketService.advanceWinner_final (m : Match) (w : Nat) (s : State) (t : Tournament)
    (ht : s.findTournament m.tournamentId = some t)
    (hfin : t.totalRounds < m.round + 1) :
    BracketService.advanceWinner m w s = (.ok (), s) := by
  rw [BracketService.advanceWinner, ht]
  simp [hfin]

/-- Helper: full description of a successful `updateScore` on the final
(the match whose round equals `totalRounds`): the match is completed, the
loser eliminated, exactly one result row appended (champion, runner-up,
semifinal losers, counts), and the tournament closed. -/
theorem BracketService.updateScore_final_spec
    (s : State) (matchId : Nat) (score1 score2 : Int) (today : String)
    (m : Match) (t : Tournament) (p1 p2 : Nat)
    (hm : s.findMatch matchId = some m)
    (hstat : m.status ≠ MStatus.pending)
    (hp1 : m.participant1Id = some p1) (hp2 : m.participant2Id = some p2)
    (hn1 : ¬score1 < 0) (hn2 : ¬score2 < 0) (hne : score1 ≠ score2)
    (ht : s.findTournament m.tournamentId = some t)
    (hfin : m.round = t.totalRounds) :
    (BracketService.updateScore matchId score1 score2 today s).1 = .ok () ∧
    (BracketService.updateScore matchId score1 score2 today s).2.results =
      s.results ++
        [{ id := s.nextId,
           tournamentId := m.tournamentId,
           championId := if score1 > score2 then p1 else p2,
           runnerUpId := if score1 > score2 then p2 else p1,
           thirdPlaceIds :=
             ((((s.«matches».filter (fun mm => mm.tournamentId == m.tournamentId)).filter
                   (fun mm => (mm.round : Int) == (t.totalRounds : Int) - 1)).filter
                 (fun mm => mm.winnerId.isSome)).map
               (fun mm => if mm.participant1Id == mm.winnerId
                 then mm.participant2Id else mm.participant1Id)).filterMap id,
           totalMatches := (s.«matches».filter (fun mm => mm.tournamentId == m.tournamentId)).length,
           totalParticipants := t.participantCount }] ∧
    (BracketService.updateScore matchId score1 score2 today s).2.findTournament m.tournamentId =
      some { t with status := .completed, currentRound := t.totalRounds,
                    endDate := some today } ∧
    (BracketService.updateScore matchId score1 score2 today s).2.«matches» =
      updateFirst (fun mm => mm.id == matchId)
        (fun mm => { mm with score1 := some score1, score2 := some score2,
                             winnerId := some (if score1 > score2 then p1 else p2),
                             status := .completed }) s.«matches» ∧
    (BracketService.updateScore matchId score1 score2 today s).2.participants =
      updateFirst (fun pp => pp.id == (if score1 > score2 then p2 else p1))
        (fun pp => { pp with status := .eliminated, eliminatedAtRound := some m.round })
        s.participants ∧
    (BracketService.updateScore matchId score1 score2 today s).2.errlog = s.errlog := by
  have hsb : (m.status == MStatus.pending) = false := by simpa using hstat
  have hscore : (decide (score1 < 0) || decide (score2 < 0)) = false := by
    simp [hn1, hn2]
  have heqb : (score1 == score2) = false := by simpa using hne
  have hrb : (m.round == t.totalRounds) = true := by simp [hfin]
  have hmfind : s.«matches».find? (fun mm => mm.id == matchId) = some m := hm
  have ht2 : (ParticipantService.eliminate (if score1 > score2 then p2 else p1) m.round
      (s.updMatch matchId (fun mm =>
        { mm with score1 := some score1, score2 := some score2,
                  winnerId := some (if score1 > score2 then p1 else p2),
                  status := .completed }))).findTournament m.tournamentId = some t := by
    simpa using ht
  have hadv := BracketService.advanceWinner_final m (if score1 > score2 then p1 else p2) _ t ht2
    (by omega)
  rw [BracketService.updateScore, hm]
  simp only [hp1, hp2, hsb, Bool.false_eq_true, if_false, hscore, heqb,
    findTournament_updMatch, ht, hadv, hrb, if_true,
    BracketService.finalizeTournament, findTournament_eliminate, ht2]
  simp only [eliminate_tournaments, eliminate_results, eliminate_nextId, eliminate_errlog,
    eliminate_matches, updMatch_tournaments, updMatch_results,
    updMatch_nextId, updMatch_errlog, updMatch_matches,
    updTournament_results, updTournament_errlog, updTournament_matches,
    updTournament_participants, updTournament_nextId]
  have hpm : ∀ q : Match → Bool,
      (∀ mm : Match, q { mm with
          score1 := some score1, score2 := some score2,
          winnerId := some (if score1 > score2 then p1 else p2),
          status := MStatus.completed } = q mm) →
      q m = false →
      (updateFirst (fun mm => mm.id == matchId)
          (fun mm => { mm with score1 := some score1, score2 := some score2,
                               winnerId := some (if score1 > score2 then p1 else p2),
                               status := MStatus.completed }) s.«matches»).filter q =
        s.«matches».filter q := fun q hpres hq =>
    filter_updateFirst_of_ne _ q _ hmfind hq ((hpres m).trans hq)
  refine ⟨trivial, ?_, ?_, ?_, ?_, ?_⟩
  · have hsemi :
        ((updateFirst (fun mm => mm.id == matchId)
            (fun mm => { mm with score1 := some score1, score2 := some score2,
                                 winnerId := some (if score1 > score2 then p1 else p2),
                                 status := MStatus.completed }) s.«matches»).filter
          (fun mm => mm.tournamentId == m.tournamentId)).filter
            (fun mm => (mm.round : Int) == (t.totalRounds : Int) - 1) =
          (s.«matches».filter (fun mm => mm.tournamentId == m.tournamentId)).filter
            (fun mm => (mm.round : Int) == (t.totalRounds : Int) - 1) := by
      rw [List.filter_filter, List.filter_filter]
      apply filter_updateFirst_of_ne _ _ _ hmfind
      · simp only [Bool.and_eq_false_iff]
        left
        simp only [beq_eq_false_iff_ne, ne_eq, hfin]
        omega
      · simp only [Bool.and_eq_false_iff]
        left
        simp only [beq_eq_false_iff_ne, ne_eq, hfin]
        omega
    have hlen :
        ((updateFirst (fun mm => mm.id == matchId)
            (fun mm => { mm with score1 := some score1, score2 := some score2,
                                 winnerId := some (if score1 > score2 then p1 else p2),
                                 status := MStatus.completed }) s.«matches»).filter
          (fun mm => mm.tournamentId == m.tournamentId)).length =
          (s.«matches».filter (fun mm => mm.tournamentId == m.tournamentId)).length :=
      filter_length_updateFirst _ _ _ hmfind rfl
    rw [hsemi, hlen]
  · show (updateFirst (fun u => u.id == m.tournamentId) _ s.tournaments).find?
      (fun u => u.id == m.tournamentId) = _
    exact find?_updateFirst_self _ _ ht (by simpa using List.find?_some ht)
  · trivial
  · rfl
  · trivial

/-- C5: scoring the match whose round equals `totalRounds` runs
finalization: exactly one Result record is appended, with champion = the
final's winner, runner-up = the final's loser, third places = the
non-winner participants of the semifinal-round (`totalRounds - 1`) matches
that have a recorded winner (unset ids filtered out), `totalMatches` = the
tournament's match count and `totalParticipants` = `participantCount`;
and the tournament becomes `completed` with `currentRound = totalRounds`
and an end date. -/
theorem claim_C5_finalization
    (s : State) (matchId : Nat) (score1 score2 : Int) (today : String)
    (m : Match) (t : Tournament) (p1 p2 : Nat)
    (hm : s.findMatch matchId = some m)
    (hstat : m.status ≠ MStatus.pending)
    (hp1 : m.participant1Id = some p1) (hp2 : m.participant2Id = some p2)
    (hn1 : ¬score1 < 0) (hn2 : ¬score2 < 0) (hne : score1 ≠ score2)
    (ht : s.findTournament m.tournamentId = some t)
    (hfin : m.round = t.totalRounds) :
    (BracketService.updateScore matchId score1 score2 today s).1 = .ok () ∧
    (BracketService.updateScore matchId score1 score2 today s).2.results =
      s.results ++
        [{ id := s.nextId,
           tournamentId := m.tournamentId,
           championId := if score1 > score2 then p1 else p2,
           runnerUpId := if score1 > score2 then p2 else p1,
           thirdPlaceIds :=
             ((((s.«matches».filter (fun mm => mm.tournamentId == m.tournamentId)).filter
                   (fun mm => (mm.round : Int) == (t.totalRounds : Int) - 1)).filter
                 (fun mm => mm.winnerId.isSome)).map
               (fun mm => if mm.participant1Id == mm.winnerId
                 then mm.participant2Id else mm.participant1Id)).filterMap id,
           totalMatches := (s.«matches».filter (fun mm => mm.tournamentId == m.tournamentId)).length,
           totalParticipants := t.participantCount }] ∧
    (BracketService.updateScore matchId score1 score2 today s).2.findTournament m.tournamentId =
      some { t with status := .completed, currentRound := t.totalRounds,
                    endDate := some today } := by
  have h := BracketService.updateScore_final_spec s matchId score1 score2 today m t p1 p2
    hm hstat hp1 hp2 hn1 hn2 hne ht hfin
  exact ⟨h.1, h.2.1, h.2.2.1⟩

/-- Witness for C5: scoring the fixture final 2-1 appends the single result
(champion 11, runner-up 13, third places 14 and 12) and closes the
tournament. -/
theorem claim_C5_finalization_witness :
    (exAfterM2.findMatch 102 = some
      { id := 102, tournamentId := 1, round := 2, matchNumber := 3,
        participant1Id := some 11, participant2Id := some 13, winnerId := none,
        score1 := none, score2 := none, status := .upcoming } ∧
     exAfterM2.findTournament 1 = some
      { id := 1, participantCount := 4, totalRounds := 2, currentRound := 2,
        status := .registration, endDate := none }) ∧
    (BracketService.updateScore 102 2 1 "2024-01-07" exAfterM2).1 = .ok () ∧
    (BracketService.updateScore 102 2 1 "2024-01-07" exAfterM2).2.findTournament 1 =
      some { id := 1, participantCount := 4, totalRounds := 2, currentRound := 2,
             status := .completed, endDate := some "2024-01-07" } := by
  have h := claim_C5_finalization exAfterM2 102 2 1 "2024-01-07"
    { id := 102, tournamentId := 1, round := 2, matchNumber := 3,
      participant1Id := some 11, participant2Id := some 13, winnerId := none,
      score1 := none, score2 := none, status := .upcoming }
    { id := 1, participantCount := 4, totalRounds := 2, currentRound := 2,
      status := .registration, endDate := none }
    11 13 (by decide) (by decide) (by decide) (by decide) (by decide) (by decide)
    (by decide) (by decide) (by decide)
  exact ⟨⟨by decide, by decide⟩, h.1, h.2.2⟩

/-- Helper: when the tournament is found, `advanceWinner` never raises. -/
theorem BracketService.advanceWinner_ok (m : Match) (w : Nat) (s : State) (t : Tournament)
    (ht : s.findTournament m.tournamentId = some t) :
    (BracketService.advanceWinner m w s).1 = .ok () := by
  rw [BracketService.advanceWinner]
  simp only [ht]
  split
  · rfl
  · split
    · rfl
    · split <;> rfl

/-- Helper: `advanceWinner` writes only to the matches collection and the
error log; every other component of the state survives unchanged. -/
theorem BracketService.advanceWinner_frame (m : Match) (w : Nat) (s : State) (t : Tournament)
    (ht : s.findTournament m.tournamentId = some t) :
    (BracketService.advanceWinner m w s).2.participants = s.participants ∧
    (BracketService.advanceWinner m w s).2.results = s.results ∧
    (BracketService.advanceWinner m w s).2.tournaments = s.tournaments ∧
    (BracketService.advanceWinner m w s).2.nextId = s.nextId := by
  rw [BracketService.advanceWinner]
  simp only [ht]
  split
  · exact ⟨rfl, rfl, rfl, rfl⟩
  · split
    · exact ⟨rfl, rfl, rfl, rfl⟩
    · split <;> exact ⟨rfl, rfl, rfl, rfl⟩

/-- Helper: the destination-found case of `advanceWinner`: the winner is
written into slot 1 or 2 of the destination according to the parity of
the source match's index in its round, and the destination becomes
`upcoming` exactly if both slots are then filled. -/
theorem BracketService.advanceWinner_dest_found
    (m : Match) (w : Nat) (s : State) (t : Tournament) (d curd : Match)
    (ht : s.findTournament m.tournamentId = some t)
    (hle : ¬m.round + 1 > t.totalRounds)
    (hd : listGetInt
        (List.insertionSort matchNumberLE
          (s.«matches».filter (fun mm => mm.tournamentId == m.tournamentId &&
            mm.round == m.round + 1)))
        (Int.fdiv ((m.matchNumber : Int) -
          (BracketService.firstMatchNumberCore t.participantCount m.round : Int)) 2) = some d)
    (hcur : s.«matches».find? (fun x => x.id == d.id) = some curd) :
    BracketService.advanceWinner m w s =
      (.ok (), s.updMatch d.id (fun _ =>
        if (if Int.tmod ((m.matchNumber : Int) -
              (BracketService.firstMatchNumberCore t.participantCount m.round : Int)) 2 == 0
            then ({ curd with participant1Id := some w } : Match)
            else { curd with participant2Id := some w }).participant1Id.isSome &&
           (if Int.tmod ((m.matchNumber : Int) -
              (BracketService.firstMatchNumberCore t.participantCount m.round : Int)) 2 == 0
            then ({ curd with participant1Id := some w } : Match)
            else { curd with participant2Id := some w }).participant2Id.isSome
        then { (if Int.tmod ((m.matchNumber : Int) -
                  (BracketService.firstMatchNumberCore t.participantCount m.round : Int)) 2 == 0
                then ({ curd with participant1Id := some w } : Match)
                else { curd with participant2Id := some w }) with status := MStatus.upcoming }
        else (if Int.tmod ((m.matchNumber : Int) -
                (BracketService.firstMatchNumberCore t.participantCount m.round : Int)) 2 == 0
              then ({ curd with participant1Id := some w } : Match)
              else { curd with participant2Id := some w }))) := by
  rw [BracketService.advanceWinner]
  simp only [ht, if_neg hle, hd, hcur]

/-- Helper: the destination-missing case of `advanceWinner`: it logs
"Next match not found" and returns normally without modifying any record. -/
theorem BracketService.advanceWinner_dest_none
    (m : Match) (w : Nat) (s : State) (t : Tournament)
    (ht : s.findTournament m.tournamentId = some t)
    (hle : ¬m.round + 1 > t.totalRounds)
    (hd : listGetInt
        (List.insertionSort matchNumberLE
          (s.«matches».filter (fun mm => mm.tournamentId == m.tournamentId &&
            mm.round == m.round + 1)))
        (Int.fdiv ((m.matchNumber : Int) -
          (BracketService.firstMatchNumberCore t.participantCount m.round : Int)) 2) = none) :
    BracketService.advanceWinner m w s =
      (.ok (), { s with errlog := "Next match not found" :: s.errlog }) := by
  rw [BracketService.advanceWinner]
  simp only [ht, if_neg hle, hd]

/-- Helper: when the tournament is found, `updateCurrentRound` never raises. -/
theorem BracketService.updateCurrentRound_ok (tournamentId : Nat) (s : State) (t : Tournament)
    (ht : s.findTournament tournamentId = some t) :
    (BracketService.updateCurrentRound tournamentId s).1 = .ok () := by
  rw [BracketService.updateCurrentRound]
  simp only [ht]
  split
  · rfl
  · split <;> rfl

/-- Helper: `updateCurrentRound` writes at most the tournament record;
everything else survives unchanged. -/
theorem BracketService.updateCurrentRound_frame (tournamentId : Nat) (s : State) (t : Tournament)
    (ht : s.findTournament tournamentId = some t) :
    (BracketService.updateCurrentRound tournamentId s).2.«matches» = s.«matches» ∧
    (BracketService.updateCurrentRound tournamentId s).2.participants = s.participants ∧
    (BracketService.updateCurrentRound tournamentId s).2.results = s.results ∧
    (BracketService.updateCurrentRound tournamentId s).2.errlog = s.errlog ∧
    (BracketService.updateCurrentRound tournamentId s).2.nextId = s.nextId := by
  rw [BracketService.updateCurrentRound]
  simp only [ht]
  split
  · exact ⟨rfl, rfl, rfl, rfl, rfl⟩
  · split <;> exact ⟨rfl, rfl, rfl, rfl, rfl⟩

/-- Helper: `updateCurrentRound` leaves the tournament at the lowest round
in `1..totalRounds` whose matches are not all completed. -/
theorem BracketService.updateCurrentRound_sets (tournamentId : Nat) (s : State) (t : Tournament)
    (r0 : Nat) (ht : s.findTournament tournamentId = some t)
    (h1 : 1 ≤ r0) (h2 : r0 ≤ t.totalRounds)
    (hp : (!(((s.«matches».filter (fun mm => mm.tournamentId == tournamentId)).filter
        (fun mm => mm.round == r0)).all (fun mm => mm.status == .completed))) = true)
    (hb : ∀ b, 1 ≤ b → b < r0 →
      (!(((s.«matches».filter (fun mm => mm.tournamentId == tournamentId)).filter
        (fun mm => mm.round == b)).all (fun mm => mm.status == .completed))) = false) :
    (BracketService.updateCurrentRound tournamentId s).2.findTournament tournamentId =
      some { t with currentRound := r0 } := by
  have hfind : (List.range' 1 t.totalRounds).find? (fun round =>
      !(((s.«matches».filter (fun mm => mm.tournamentId == tournamentId)).filter
        (fun mm => mm.round == round)).all (fun mm => mm.status == .completed))) = some r0 :=
    find?_range'_eq_some h1 (by omega) hp (fun b hb1 hb2 => hb b hb1 hb2)
  rw [BracketService.updateCurrentRound]
  simp only [ht, hfind]
  split
  · next hne =>
    show (updateFirst (fun u => u.id == tournamentId) _ s.tournaments).find?
      (fun u => u.id == tournamentId) = _
    exact find?_updateFirst_self _ _ ht (by simpa using List.find?_some ht)
  · next hne =>
    have hcr : t.currentRound = r0 := by
      simpa using hne
    rw [show ({ t with currentRound := r0 } : Tournament) = t by
      cases t; simp_all]
    exact ht

/-- Helper: full description of a successful `updateScore` on a non-final
match: the match is completed, the loser eliminated, no result row is
written, the matches end up as `advanceWinner` leaves them, and
`currentRound` becomes the lowest round with a non-completed match. -/
theorem BracketService.updateScore_nonfinal_spec
    (s : State) (matchId : Nat) (score1 score2 : Int) (today : String)
    (m : Match) (t : Tournament) (p1 p2 : Nat)
    (hm : s.findMatch matchId = some m)
    (hstat : m.status ≠ MStatus.pending)
    (hp1 : m.participant1Id = some p1) (hp2 : m.participant2Id = some p2)
    (hn1 : ¬score1 < 0) (hn2 : ¬score2 < 0) (hne : score1 ≠ score2)
    (ht : s.findTournament m.tournamentId = some t)
    (hlt : m.round < t.totalRounds) :
    (BracketService.updateScore matchId score1 score2 today s).1 = .ok () ∧
    (BracketService.updateScore matchId score1 score2 today s).2.participants =
      updateFirst (fun pp => pp.id == (if score1 > score2 then p2 else p1))
        (fun pp => { pp with status := .eliminated, eliminatedAtRound := some m.round })
        s.participants ∧
    (BracketService.updateScore matchId score1 score2 today s).2.results = s.results ∧
    (BracketService.updateScore matchId score1 score2 today s).2.«matches» =
      (BracketService.advanceWinner m (if score1 > score2 then p1 else p2)
        (ParticipantService.eliminate (if score1 > score2 then p2 else p1) m.round
          (s.updMatch matchId (fun mm =>
            { mm with score1 := some score1, score2 := some score2,
                      winnerId := some (if score1 > score2 then p1 else p2),
                      status := MStatus.completed })))).2.«matches» ∧
    (BracketService.updateScore matchId score1 score2 today s).2.errlog =
      (BracketService.advanceWinner m (if score1 > score2 then p1 else p2)
        (ParticipantService.eliminate (if score1 > score2 then p2 else p1) m.round
          (s.updMatch matchId (fun mm =>
            { mm with score1 := some score1, score2 := some score2,
                      winnerId := some (if score1 > score2 then p1 else p2),
                      status := MStatus.completed })))).2.errlog ∧
    (∀ r0, 1 ≤ r0 → r0 ≤ t.totalRounds →
      (!((((BracketService.updateScore matchId score1 score2 today s).2.«matches».filter
            (fun mm => mm.tournamentId == m.tournamentId)).filter
          (fun mm => mm.round == r0)).all (fun mm => mm.status == .completed))) = true →
      (∀ b, 1 ≤ b → b < r0 →
        (!((((BracketService.updateScore matchId score1 score2 today s).2.«matches».filter
              (fun mm => mm.tournamentId == m.tournamentId)).filter
            (fun mm => mm.round == b)).all (fun mm => mm.status == .completed))) = false) →
      (BracketService.updateScore matchId score1 score2 today s).2.findTournament m.tournamentId =
        some { t with currentRound := r0 }) := by
  have hsb : (m.status == MStatus.pending) = false := by simpa using hstat
  have hscore : (decide (score1 < 0) || decide (score2 < 0)) = false := by
    simp [hn1, hn2]
  have heqb : (score1 == score2) = false := by simpa using hne
  have hrbf : (m.round == t.totalRounds) = false := by
    simp only [beq_eq_false_iff_ne, ne_eq]
    omega
  have ht2 : (ParticipantService.eliminate (if score1 > score2 then p2 else p1) m.round
      (s.updMatch matchId (fun mm =>
        { mm with score1 := some score1, score2 := some score2,
                  winnerId := some (if score1 > score2 then p1 else p2),
                  status := MStatus.completed }))).findTournament m.tournamentId = some t := by
    simpa using ht
  have hadvpair : BracketService.advanceWinner m (if score1 > score2 then p1 else p2)
      (ParticipantService.eliminate (if score1 > score2 then p2 else p1) m.round
        (s.updMatch matchId (fun mm =>
          { mm with score1 := some score1, score2 := some score2,
                    winnerId := some (if score1 > score2 then p1 else p2),
                    status := MStatus.completed }))) =
      (.ok (), (BracketService.advanceWinner m (if score1 > score2 then p1 else p2)
        (ParticipantService.eliminate (if score1 > score2 then p2 else p1) m.round
          (s.updMatch matchId (fun mm =>
            { mm with score1 := some score1, score2 := some score2,
                      winnerId := some (if score1 > score2 then p1 else p2),
                      status := MStatus.completed })))).2) := by
    have h1 := BracketService.advanceWinner_ok m (if score1 > score2 then p1 else p2) _ t ht2
    have h2 : BracketService.advanceWinner m (if score1 > score2 then p1 else p2)
        (ParticipantService.eliminate (if score1 > score2 then p2 else p1) m.round
          (s.updMatch matchId (fun mm =>
            { mm with score1 := some score1, score2 := some score2,
                      winnerId := some (if score1 > score2 then p1 else p2),
                      status := MStatus.completed }))) =
        ((BracketService.advanceWinner m (if score1 > score2 then p1 else p2)
          (ParticipantService.eliminate (if score1 > score2 then p2 else p1) m.round
            (s.updMatch matchId (fun mm =>
              { mm with score1 := some score1, score2 := some score2,
                        winnerId := some (if score1 > score2 then p1 else p2),
                        status := MStatus.completed })))).1,
         (BracketService.advanceWinner m (if score1 > score2 then p1 else p2)
          (ParticipantService.eliminate (if score1 > score2 then p2 else p1) m.round
            (s.updMatch matchId (fun mm =>
              { mm with score1 := some score1, score2 := some score2,
                        winnerId := some (if score1 > score2 then p1 else p2),
                        status := MStatus.completed })))).2) := rfl
    rw [h1] at h2
    exact h2
  have hframeA := BracketService.advanceWinner_frame m (if score1 > score2 then p1 else p2) _ t ht2
  have htX : (BracketService.advanceWinner m (if score1 > score2 then p1 else p2)
      (ParticipantService.eliminate (if score1 > score2 then p2 else p1) m.round
        (s.updMatch matchId (fun mm =>
          { mm with score1 := some score1, score2 := some score2,
                    winnerId := some (if score1 > score2 then p1 else p2),
                    status := MStatus.completed })))).2.findTournament m.tournamentId = some t := by
    show ((BracketService.advanceWinner _ _ _).2.tournaments.find? _) = _
    rw [hframeA.2.2.1]
    exact ht2
  have hupair : BracketService.updateCurrentRound m.tournamentId
      (BracketService.advanceWinner m (if score1 > score2 then p1 else p2)
        (ParticipantService.eliminate (if score1 > score2 then p2 else p1) m.round
          (s.updMatch matchId (fun mm =>
            { mm with score1 := some score1, score2 := some score2,
                      winnerId := some (if score1 > score2 then p1 else p2),
                      status := MStatus.completed })))).2 =
      (.ok (), (BracketService.updateCurrentRound m.tournamentId
        (BracketService.advanceWinner m (if score1 > score2 then p1 else p2)
          (ParticipantService.eliminate (if score1 > score2 then p2 else p1) m.round
            (s.updMatch matchId (fun mm =>
              { mm with score1 := some score1, score2 := some score2,
                        winnerId := some (if score1 > score2 then p1 else p2),
                        status := MStatus.completed })))).2).2) := by
    have h1 := BracketService.updateCurrentRound_ok m.tournamentId _ t htX
    have h2 : BracketService.updateCurrentRound m.tournamentId
        (BracketService.advanceWinner m (if score1 > score2 then p1 else p2)
          (ParticipantService.eliminate (if score1 > score2 then p2 else p1) m.round
            (s.updMatch matchId (fun mm =>
              { mm with score1 := some score1, score2 := some score2,
                        winnerId := some (if score1 > score2 then p1 else p2),
                        status := MStatus.completed })))).2 =
        ((BracketService.updateCurrentRound m.tournamentId
          (BracketService.advanceWinner m (if score1 > score2 then p1 else p2)
            (ParticipantService.eliminate (if score1 > score2 then p2 else p1) m.round
              (s.updMatch matchId (fun mm =>
                { mm with score1 := some score1, score2 := some score2,
                          winnerId := some (if score1 > score2 then p1 else p2),
                          status := MStatus.completed })))).2).1,
         (BracketService.updateCurrentRound m.tournamentId
          (BracketService.advanceWinner m (if score1 > score2 then p1 else p2)
            (ParticipantService.eliminate (if score1 > score2 then p2 else p1) m.round
              (s.updMatch matchId (fun mm =>
                { mm with score1 := some score1, score2 := some score2,
                          winnerId := some (if score1 > score2 then p1 else p2),
                          status := MStatus.completed })))).2).2) := rfl
    rw [h1] at h2
    exact h2
  have hframeU := BracketService.updateCurrentRound_frame m.tournamentId _ t htX
  have hrun : BracketService.updateScore matchId score1 score2 today s =
      (.ok (), (BracketService.updateCurrentRound m.tournamentId
        (BracketService.advanceWinner m (if score1 > score2 then p1 else p2)
          (ParticipantService.eliminate (if score1 > score2 then p2 else p1) m.round
            (s.updMatch matchId (fun mm =>
              { mm with score1 := some score1, score2 := some score2,
                        winnerId := some (if score1 > score2 then p1 else p2),
                        status := MStatus.completed })))).2).2) := by
    rw [BracketService.updateScore, hm]
    simp only [hp1, hp2, hsb, Bool.false_eq_true, if_false, hscore, heqb,
      findTournament_updMatch, ht, hrbf]
    rw [hadvpair]
    simp only [hrbf, Bool.false_eq_true, if_false]
    rw [hupair]
  refine ⟨by rw [hrun], ?_, ?_, ?_, ?_, ?_⟩
  · rw [hrun]
    show (BracketService.updateCurrentRound _ _).2.participants = _
    rw [hframeU.2.1, hframeA.1]
    rfl
  · rw [hrun]
    show (BracketService.updateCurrentRound _ _).2.results = _
    rw [hframeU.2.2.1, hframeA.2.1]
    rfl
  · rw [hrun]
    show (BracketService.updateCurrentRound _ _).2.«matches» = _
    exact hframeU.1
  · rw [hrun]
    show (BracketService.updateCurrentRound _ _).2.errlog = _
    exact hframeU.2.2.2.1
  · intro r0 h1 h2 hp hb
    rw [hrun] at hp hb ⊢
    show (BracketService.updateCurrentRound _ _).2.findTournament _ = _
    apply BracketService.updateCurrentRound_sets _ _ t r0 htX h1 h2
    · rw [← hframeU.1]
      exact hp
    · intro b hb1 hb2
      rw [← hframeU.1]
      exact hb b hb1 hb2

/-- C6: after a successful `updateScore` on a non-final match, the
tournament's `currentRound` equals the lowest round (within
`1..totalRounds`) that still contains a match whose status is not
`completed`; once the final is scored, `currentRound` equals
`totalRounds`. -/
theorem claim_C6_currentRound
    (s : State) (matchId : Nat) (score1 score2 : Int) (today : String)
    (m : Match) (t : Tournament) (p1 p2 : Nat)
    (hm : s.findMatch matchId = some m)
    (hstat : m.status ≠ MStatus.pending)
    (hp1 : m.participant1Id = some p1) (hp2 : m.participant2Id = some p2)
    (hn1 : ¬score1 < 0) (hn2 : ¬score2 < 0) (hne : score1 ≠ score2)
    (ht : s.findTournament m.tournamentId = some t) :
    (m.round < t.totalRounds →
      ∀ r0, 1 ≤ r0 → r0 ≤ t.totalRounds →
      (∃ mm ∈ (BracketService.updateScore matchId score1 score2 today s).2.«matches»,
        mm.tournamentId = m.tournamentId ∧ mm.round = r0 ∧ mm.status ≠ MStatus.completed) →
      (∀ r', r' < r0 →
        ¬∃ mm ∈ (BracketService.updateScore matchId score1 score2 today s).2.«matches»,
          mm.tournamentId = m.tournamentId ∧ mm.round = r' ∧ mm.status ≠ MStatus.completed) →
      (BracketService.updateScore matchId score1 score2 today s).2.findTournament m.tournamentId =
        some { t with currentRound := r0 }) ∧
    (m.round = t.totalRounds →
      ∀ u, (BracketService.updateScore matchId score1 score2 today s).2.findTournament
        m.tournamentId = some u → u.currentRound = t.totalRounds) := by
  constructor
  · intro hlt r0 h1 h2 hex hmin
    have hspec := BracketService.updateScore_nonfinal_spec s matchId score1 score2 today
      m t p1 p2 hm hstat hp1 hp2 hn1 hn2 hne ht hlt
    apply hspec.2.2.2.2.2 r0 h1 h2
    · obtain ⟨mm, hmem, htid, hr, hst⟩ := hex
      rw [Bool.not_eq_true', Bool.eq_false_iff]
      intro hall
      rw [List.all_eq_true] at hall
      have := hall mm (by
        rw [List.mem_filter, List.mem_filter]
        refine ⟨⟨hmem, by simp [htid]⟩, by simp [hr]⟩)
      simp only [beq_iff_eq] at this
      exact hst this
    · intro b _ hblt
      have hnone := hmin b hblt
      rw [Bool.not_eq_false', List.all_eq_true]
      intro mm hmem
      rw [List.mem_filter, List.mem_filter] at hmem
      simp only [beq_iff_eq] at hmem
      by_contra hcontra
      exact hnone ⟨mm, hmem.1.1, hmem.1.2, hmem.2, by simpa using hcontra⟩
  · intro hfin u hu
    have hspec := BracketService.updateScore_final_spec s matchId score1 score2 today
      m t p1 p2 hm hstat hp1 hp2 hn1 hn2 hne ht hfin
    rw [hspec.2.2.1] at hu
    injection hu with hu
    rw [← hu]

/-- Witness for C6: scoring fixture match 100 (non-final) leaves
`currentRound` at 1 (match 101 of round 1 is still incomplete), and
scoring the fixture final sets `currentRound` to `totalRounds = 2`. -/
theorem claim_C6_currentRound_witness :
    ((BracketService.updateScore 100 3 1 "2024-01-06" exAssigned).2.findTournament 1 =
      some { id := 1, participantCount := 4, totalRounds := 2, currentRound := 1,
             status := .registration, endDate := none }) ∧
    (∀ u, (BracketService.updateScore 102 2 1 "2024-01-07" exAfterM2).2.findTournament 1 =
      some u → u.currentRound = 2) := by
  constructor
  · have h := claim_C6_currentRound exAssigned 100 3 1 "2024-01-06"
      { id := 100, tournamentId := 1, round := 1, matchNumber := 1,
        participant1Id := some 11, participant2Id := some 14, winnerId := none,
        score1 := none, score2 := none, status := .upcoming }
      { id := 1, participantCount := 4, totalRounds := 2, currentRound := 1,
        status := .registration, endDate := none }
      11 14 (by decide) (by decide) (by decide) (by decide) (by decide) (by decide)
      (by decide) (by decide)
    exact h.1 (by decide) 1 (by decide) (by decide) (by decide) (by decide)
  · have h := claim_C6_currentRound exAfterM2 102 2 1 "2024-01-07"
      { id := 102, tournamentId := 1, round := 2, matchNumber := 3,
        participant1Id := some 11, participant2Id := some 13, winnerId := none,
        score1 := none, score2 := none, status := .upcoming }
      { id := 1, participantCount := 4, totalRounds := 2, currentRound := 2,
        status := .registration, endDate := none }
      11 13 (by decide) (by decide) (by decide) (by decide) (by decide) (by decide)
      (by decide) (by decide)
    exact h.2 (by decide)

/-- Counterexample to C8: `exRescored` is reached from the draft fixture
purely through engine calls (generate, assignParticipants, three
updateScore calls, then a re-score of the completed final).  Its first
Result record names participant 11 as champion, yet participant 11 has
status `eliminated` (and the second Result's champion 13 is eliminated
too), so "the champion is never eliminated" fails in a reachable state. -/
theorem claim_C8_champion_eliminated_counterexample :
    exRescored.results.map (fun r => (r.tournamentId, r.championId)) = [(1, 11), (1, 13)] ∧
    exRescored.findParticipant 11 = some
      { id := 11, tournamentId := 1, seed := some 1, status := .eliminated,
        eliminatedAtRound := some 2 } ∧
    exRescored.findParticipant 13 = some
      { id := 13, tournamentId := 1, seed := some 3, status := .eliminated,
        eliminatedAtRound := some 2 } := by
  refine ⟨by decide, by decide, by decide⟩

/-- C8 (amended): every successful `updateScore` call updates exactly one
participant record — the first record carrying the loser's id — to
`eliminated` at the match's round, leaving every other participant
untouched; in particular a finalizing call never eliminates the champion
it records (the champion's participant record is unchanged by the call
when the final's participants are distinct).  The unrestricted
"champion is never eliminated" invariant fails under re-scoring (see the
counterexample). -/
theorem claim_C8_elimination
    (s : State) (matchId : Nat) (score1 score2 : Int) (today : String)
    (m : Match) (t : Tournament) (p1 p2 : Nat)
    (hm : s.findMatch matchId = some m)
    (hstat : m.status ≠ MStatus.pending)
    (hp1 : m.participant1Id = some p1) (hp2 : m.participant2Id = some p2)
    (hn1 : ¬score1 < 0) (hn2 : ¬score2 < 0) (hne : score1 ≠ score2)
    (ht : s.findTournament m.tournamentId = some t)
    (hle : m.round ≤ t.totalRounds) :
    (BracketService.updateScore matchId score1 score2 today s).1 = .ok () ∧
    (BracketService.updateScore matchId score1 score2 today s).2.participants =
      updateFirst (fun pp => pp.id == (if score1 > score2 then p2 else p1))
        (fun pp => { pp with status := .eliminated, eliminatedAtRound := some m.round })
        s.participants ∧
    (∀ q0, s.participants.find? (fun pp => pp.id == (if score1 > score2 then p2 else p1)) =
        some q0 →
      (BracketService.updateScore matchId score1 score2 today s).2.findParticipant
        (if score1 > score2 then p2 else p1) =
          some { q0 with status := .eliminated, eliminatedAtRound := some m.round }) ∧
    (∀ x, x ≠ (if score1 > score2 then p2 else p1) →
      (BracketService.updateScore matchId score1 score2 today s).2.findParticipant x =
        s.findParticipant x) ∧
    (m.round = t.totalRounds → p1 ≠ p2 →
      (BracketService.updateScore matchId score1 score2 today s).2.findParticipant
        (if score1 > score2 then p1 else p2) =
          s.findParticipant (if score1 > score2 then p1 else p2)) := by
  have hmain : (BracketService.updateScore matchId score1 score2 today s).1 = .ok () ∧
      (BracketService.updateScore matchId score1 score2 today s).2.participants =
        updateFirst (fun pp => pp.id == (if score1 > score2 then p2 else p1))
          (fun pp => { pp with status := .eliminated, eliminatedAtRound := some m.round })
          s.participants := by
    rcases Nat.lt_or_ge m.round t.totalRounds with hlt | hge
    · have hspec := BracketService.updateScore_nonfinal_spec s matchId score1 score2 today
        m t p1 p2 hm hstat hp1 hp2 hn1 hn2 hne ht hlt
      exact ⟨hspec.1, hspec.2.1⟩
    · have hfin : m.round = t.totalRounds := by omega
      have hspec := BracketService.updateScore_final_spec s matchId score1 score2 today
        m t p1 p2 hm hstat hp1 hp2 hn1 hn2 hne ht hfin
      exact ⟨hspec.1, hspec.2.2.2.2.1⟩
  refine ⟨hmain.1, hmain.2, ?_, ?_, ?_⟩
  · intro q0 hq0
    show (BracketService.updateScore matchId score1 score2 today s).2.participants.find? _ = _
    rw [hmain.2]
    exact find?_updateFirst_self _ _ hq0 (by simpa using List.find?_some hq0)
  · intro x hx
    show (BracketService.updateScore matchId score1 score2 today s).2.participants.find? _ =
      s.participants.find? _
    rw [hmain.2]
    cases hq0 : s.participants.find?
        (fun pp => pp.id == (if score1 > score2 then p2 else p1)) with
    | none => rw [updateFirst_of_find?_eq_none _ _ hq0]
    | some q0 =>
      apply find?_updateFirst_of_ne _ _ _ hq0
      · have := List.find?_some hq0
        simp only [beq_iff_eq] at this
        simp only [beq_eq_false_iff_ne, ne_eq]
        omega
      · have := List.find?_some hq0
        simp only [beq_iff_eq] at this
        simp only [beq_eq_false_iff_ne, ne_eq]
        omega
  · intro _ hp12
    have hwl : (if score1 > score2 then p1 else p2) ≠ (if score1 > score2 then p2 else p1) := by
      by_cases hgt : score1 > score2 <;> simp [hgt, hp12, Ne.symm hp12]
    show (BracketService.updateScore matchId score1 score2 today s).2.participants.find? _ =
      s.participants.find? _
    rw [hmain.2]
    cases hq0 : s.participants.find?
        (fun pp => pp.id == (if score1 > score2 then p2 else p1)) with
    | none => rw [updateFirst_of_find?_eq_none _ _ hq0]
    | some q0 =>
      apply find?_updateFirst_of_ne _ _ _ hq0
      · have := List.find?_some hq0
        simp only [beq_iff_eq] at this
        simp only [beq_eq_false_iff_ne, ne_eq]
        omega
      · have := List.find?_some hq0
        simp only [beq_iff_eq] at this
        simp only [beq_eq_false_iff_ne, ne_eq]
        omega

/-- Witness for C8 (amended): scoring fixture match 100 as 3-1 eliminates
exactly participant 14 (the loser) at round 1 and leaves the winner's
record untouched. -/
theorem claim_C8_elimination_witness :
    (BracketService.updateScore 100 3 1 "2024-01-06" exAssigned).2.findParticipant 14 =
      some { id := 14, tournamentId := 1, seed := some 4, status := .eliminated,
             eliminatedAtRound := some 1 } ∧
    (BracketService.updateScore 100 3 1 "2024-01-06" exAssigned).2.findParticipant 11 =
      exAssigned.findParticipant 11 := by
  have h := claim_C8_elimination exAssigned 100 3 1 "2024-01-06"
    { id := 100, tournamentId := 1, round := 1, matchNumber := 1,
      participant1Id := some 11, participant2Id := some 14, winnerId := none,
      score1 := none, score2 := none, status := .upcoming }
    { id := 1, participantCount := 4, totalRounds := 2, currentRound := 1,
      status := .registration, endDate := none }
    11 14 (by decide) (by decide) (by decide) (by decide) (by decide) (by decide)
    (by decide) (by decide) (by decide)
  refine ⟨?_, ?_⟩
  · have h3 := h.2.2.1
      { id := 14, tournamentId := 1, seed := some 4, status := .active,
        eliminatedAtRound := none } (by decide)
    exact h3
  · exact h.2.2.2.1 11 (by decide)

/-- C1: on a successful `updateScore` of a non-final match, the winner is
placed into the destination match `d` found at index
`(matchNumber - firstMatchNumberCore participantCount round).fdiv 2`
of the next round's matches ordered by matchNumber: slot `participant1`
when the index in the round is even, slot `participant2` when odd, and
the destination's status becomes `upcoming` exactly when both of its
slots are then filled. -/
theorem claim_C1_advancement
    (s : State) (matchId : Nat) (score1 score2 : Int) (today : String)
    (m : Match) (t : Tournament) (p1 p2 : Nat) (d : Match)
    (hm : s.findMatch matchId = some m)
    (hstat : m.status ≠ MStatus.pending)
    (hp1 : m.participant1Id = some p1) (hp2 : m.participant2Id = some p2)
    (hn1 : ¬score1 < 0) (hn2 : ¬score2 < 0) (hne : score1 ≠ score2)
    (ht : s.findTournament m.tournamentId = some t)
    (hlt : m.round < t.totalRounds)
    (hnodup : (s.«matches».map (fun mm => mm.id)).Nodup)
    (hd : listGetInt
        (List.insertionSort matchNumberLE
          (s.«matches».filter (fun mm => mm.tournamentId == m.tournamentId &&
            mm.round == m.round + 1)))
        (Int.fdiv ((m.matchNumber : Int) -
          (BracketService.firstMatchNumberCore t.participantCount m.round : Int)) 2) = some d)
    (hdstat : d.status = MStatus.pending) :
    (BracketService.updateScore matchId score1 score2 today s).1 = .ok () ∧
    (Int.tmod ((m.matchNumber : Int) -
        (BracketService.firstMatchNumberCore t.participantCount m.round : Int)) 2 = 0 →
      (BracketService.updateScore matchId score1 score2 today s).2.findMatch d.id =
        some (if d.participant2Id.isSome
          then { d with participant1Id := some (if score1 > score2 then p1 else p2),
                        status := .upcoming }
          else { d with participant1Id := some (if score1 > score2 then p1 else p2) })) ∧
    (Int.tmod ((m.matchNumber : Int) -
        (BracketService.firstMatchNumberCore t.participantCount m.round : Int)) 2 ≠ 0 →
      (BracketService.updateScore matchId score1 score2 today s).2.findMatch d.id =
        some (if d.participant1Id.isSome
          then { d with participant2Id := some (if score1 > score2 then p1 else p2),
                        status := .upcoming }
          else { d with participant2Id := some (if score1 > score2 then p1 else p2) })) ∧
    (∀ d', (BracketService.updateScore matchId score1 score2 today s).2.findMatch d.id =
        some d' →
      (d'.status = MStatus.upcoming ↔
        (d'.participant1Id.isSome ∧ d'.participant2Id.isSome))) := by
  have hspec := BracketService.updateScore_nonfinal_spec s matchId score1 score2 today
    m t p1 p2 hm hstat hp1 hp2 hn1 hn2 hne ht hlt
  have hmfind : s.«matches».find? (fun mm => mm.id == matchId) = some m := hm
  -- the destination is an element of the stored matches, in round `m.round + 1`
  have hdmem : d ∈ List.insertionSort matchNumberLE
      (s.«matches».filter (fun mm => mm.tournamentId == m.tournamentId &&
        mm.round == m.round + 1)) := by
    rw [listGetInt] at hd
    split at hd
    · exact absurd hd (by simp)
    · exact List.getElem?_mem hd
  have hdmem2 : d ∈ s.«matches».filter (fun mm => mm.tournamentId == m.tournamentId &&
      mm.round == m.round + 1) :=
    (List.Perm.mem_iff (List.perm_insertionSort matchNumberLE _)).mp hdmem
  have hdround : d.round = m.round + 1 := by
    have := (List.mem_filter.mp hdmem2).2
    simp only [Bool.and_eq_true, beq_iff_eq] at this
    exact this.2
  have hdmem3 : d ∈ s.«matches» := (List.mem_filter.mp hdmem2).1
  have hmmem : m ∈ s.«matches» := List.mem_of_find?_eq_some hm
  have hmd : m.id ≠ d.id := by
    intro hcontra
    have := List.inj_on_of_nodup_map hnodup hmmem hdmem3 hcontra
    rw [this] at hdround
    omega
  -- the match update does not disturb the next round's matches
  have hfilter : (updateFirst (fun mm => mm.id == matchId)
      (fun mm => { mm with score1 := some score1, score2 := some score2,
                           winnerId := some (if score1 > score2 then p1 else p2),
                           status := MStatus.completed }) s.«matches»).filter
        (fun mm => mm.tournamentId == m.tournamentId && mm.round == m.round + 1) =
      s.«matches».filter (fun mm => mm.tournamentId == m.tournamentId &&
        mm.round == m.round + 1) := by
    apply filter_updateFirst_of_ne _ _ _ hmfind
    · simp only [Bool.and_eq_false_iff]
      right
      simp only [beq_eq_false_iff_ne, ne_eq]
      omega
    · simp only [Bool.and_eq_false_iff]
      right
      simp only [beq_eq_false_iff_ne, ne_eq]
      omega
  -- looking up the destination in the updated store still finds `d`
  have hcur0 : s.«matches».find? (fun x => x.id == d.id) = some d :=
    @find?_of_nodup_key _ (fun mm => mm.id) _ _ hnodup hdmem3
  have hcur : (updateFirst (fun mm => mm.id == matchId)
      (fun mm => { mm with score1 := some score1, score2 := some score2,
                           winnerId := some (if score1 > score2 then p1 else p2),
                           status := MStatus.completed }) s.«matches»).find?
        (fun x => x.id == d.id) = some d := by
    rw [find?_updateFirst_of_ne _ _ _ hmfind (by simpa using hmd)
      (by simpa using hmd)]
    exact hcur0
  have ht2 : (ParticipantService.eliminate (if score1 > score2 then p2 else p1) m.round
      (s.updMatch matchId (fun mm =>
        { mm with score1 := some score1, score2 := some score2,
                  winnerId := some (if score1 > score2 then p1 else p2),
                  status := MStatus.completed }))).findTournament m.tournamentId = some t := by
    simpa using ht
  have hadv := BracketService.advanceWinner_dest_found m
    (if score1 > score2 then p1 else p2)
    (ParticipantService.eliminate (if score1 > score2 then p2 else p1) m.round
      (s.updMatch matchId (fun mm =>
        { mm with score1 := some score1, score2 := some score2,
                  winnerId := some (if score1 > score2 then p1 else p2),
                  status := MStatus.completed }))) t d d ht2 (by omega)
    (by
      show listGetInt (List.insertionSort matchNumberLE
        ((updateFirst _ _ s.«matches»).filter _)) _ = some d
      rw [hfilter]
      exact hd)
    (by
      show (updateFirst _ _ s.«matches»).find? _ = some d
      exact hcur)
  -- the final matches collection
  have hmatches : (BracketService.updateScore matchId score1 score2 today s).2.«matches» =
      updateFirst (fun x => x.id == d.id)
        (fun _ =>
          if (if Int.tmod ((m.matchNumber : Int) -
                (BracketService.firstMatchNumberCore t.participantCount m.round : Int)) 2 == 0
              then ({ d with participant1Id := some (if score1 > score2 then p1 else p2) } : Match)
              else { d with participant2Id := some (if score1 > score2 then p1 else p2) }).participant1Id.isSome &&
             (if Int.tmod ((m.matchNumber : Int) -
                (BracketService.firstMatchNumberCore t.participantCount m.round : Int)) 2 == 0
              then ({ d with participant1Id := some (if score1 > score2 then p1 else p2) } : Match)
              else { d with participant2Id := some (if score1 > score2 then p1 else p2) }).participant2Id.isSome
          then { (if Int.tmod ((m.matchNumber : Int) -
                    (BracketService.firstMatchNumberCore t.participantCount m.round : Int)) 2 == 0
                  then ({ d with participant1Id := some (if score1 > score2 then p1 else p2) } : Match)
                  else { d with participant2Id := some (if score1 > score2 then p1 else p2) })
                with status := MStatus.upcoming }
          else (if Int.tmod ((m.matchNumber : Int) -
                  (BracketService.firstMatchNumberCore t.participantCount m.round : Int)) 2 == 0
                then ({ d with participant1Id := some (if score1 > score2 then p1 else p2) } : Match)
                else { d with participant2Id := some (if score1 > score2 then p1 else p2) }))
        (updateFirst (fun mm => mm.id == matchId)
          (fun mm => { mm with score1 := some score1, score2 := some score2,
                               winnerId := some (if score1 > score2 then p1 else p2),
                               status := MStatus.completed }) s.«matches») := by
    rw [hspec.2.2.2.1, hadv]
    rfl
  have hfindd : (BracketService.updateScore matchId score1 score2 today s).2.findMatch d.id =
      some (if (if Int.tmod ((m.matchNumber : Int) -
                (BracketService.firstMatchNumberCore t.participantCount m.round : Int)) 2 == 0
              then ({ d with participant1Id := some (if score1 > score2 then p1 else p2) } : Match)
              else { d with participant2Id := some (if score1 > score2 then p1 else p2) }).participant1Id.isSome &&
             (if Int.tmod ((m.matchNumber : Int) -
                (BracketService.firstMatchNumberCore t.participantCount m.round : Int)) 2 == 0
              then ({ d with participant1Id := some (if score1 > score2 then p1 else p2) } : Match)
              else { d with participant2Id := some (if score1 > score2 then p1 else p2) }).participant2Id.isSome
          then { (if Int.tmod ((m.matchNumber : Int) -
                    (BracketService.firstMatchNumberCore t.participantCount m.round : Int)) 2 == 0
                  then ({ d with participant1Id := some (if score1 > score2 then p1 else p2) } : Match)
                  else { d with participant2Id := some (if score1 > score2 then p1 else p2) })
                with status := MStatus.upcoming }
          else (if Int.tmod ((m.matchNumber : Int) -
                  (BracketService.firstMatchNumberCore t.participantCount m.round : Int)) 2 == 0
                then ({ d with participant1Id := some (if score1 > score2 then p1 else p2) } : Match)
                else { d with participant2Id := some (if score1 > score2 then p1 else p2) })) := by
    show (BracketService.updateScore matchId score1 score2 today s).2.«matches».find? _ = _
    rw [hmatches]
    apply find?_updateFirst_self _ _ hcur
    simp only [beq_iff_eq]
    repeat' split
    all_goals rfl
  refine ⟨hspec.1, ?_, ?_, ?_⟩
  · intro heven
    have hevb : (Int.tmod ((m.matchNumber : Int) -
        (BracketService.firstMatchNumberCore t.participantCount m.round : Int)) 2 == 0) = true := by
      simpa using heven
    rw [hfindd]
    simp only [hevb, if_true, Option.isSome_some, Bool.true_and]
  · intro hodd
    have hodb : (Int.tmod ((m.matchNumber : Int) -
        (BracketService.firstMatchNumberCore t.participantCount m.round : Int)) 2 == 0) = false := by
      simpa using hodd
    rw [hfindd]
    simp only [hodb, Bool.false_eq_true, if_false, Option.isSome_some, Bool.and_true]
  · intro d' hd'
    rw [hfindd] at hd'
    injection hd' with hd'
    subst hd'
    by_cases heven : Int.tmod ((m.matchNumber : Int) -
        (BracketService.firstMatchNumberCore t.participantCount m.round : Int)) 2 = 0
    · have hevb : (Int.tmod ((m.matchNumber : Int) -
          (BracketService.firstMatchNumberCore t.participantCount m.round : Int)) 2 == 0) = true := by
        simpa using heven
      simp only [hevb, if_true, Option.isSome_some, Bool.true_and]
      by_cases hp2s : d.participant2Id.isSome = true
      · simp [hp2s]
      · simp only [Bool.not_eq_true] at hp2s
        simp [hp2s, hdstat]
    · have hodb : (Int.tmod ((m.matchNumber : Int) -
          (BracketService.firstMatchNumberCore t.participantCount m.round : Int)) 2 == 0) = false := by
        simpa using heven
      simp only [hodb, Bool.false_eq_true, if_false, Option.isSome_some, Bool.and_true]
      by_cases hp1s : d.participant1Id.isSome = true
      · simp [hp1s]
      · simp only [Bool.not_eq_true] at hp1s
        simp [hp1s, hdstat]

/-- Witness for C1: scoring fixture match 100 (matchNumber 1, index 0 in
round 1 — even) as 3-1 places winner 11 into `participant1` of the round-2
match 102, which stays `pending` because its second slot is still empty. -/
theorem claim_C1_advancement_witness :
    ((exAssigned.«matches».map (fun mm => mm.id)).Nodup ∧
     listGetInt (List.insertionSort matchNumberLE
        (exAssigned.«matches».filter (fun mm => mm.tournamentId == 1 && mm.round == 1 + 1)))
        (Int.fdiv (((1 : Nat) : Int) -
          ((BracketService.firstMatchNumberCore 4 1 : Nat) : Int)) 2) =
      some { id := 102, tournamentId := 1, round := 2, matchNumber := 3,
             participant1Id := none, participant2Id := none, winnerId := none,
             score1 := none, score2 := none, status := .pending }) ∧
    (BracketService.updateScore 100 3 1 "2024-01-06" exAssigned).2.findMatch 102 =
      some { id := 102, tournamentId := 1, round := 2, matchNumber := 3,
             participant1Id := some 11, participant2Id := none, winnerId := none,
             score1 := none, score2 := none, status := .pending } := by
  have h := claim_C1_advancement exAssigned 100 3 1 "2024-01-06"
    { id := 100, tournamentId := 1, round := 1, matchNumber := 1,
      participant1Id := some 11, participant2Id := some 14, winnerId := none,
      score1 := none, score2 := none, status := .upcoming }
    { id := 1, participantCount := 4, totalRounds := 2, currentRound := 1,
      status := .registration, endDate := none }
    11 14
    { id := 102, tournamentId := 1, round := 2, matchNumber := 3,
      participant1Id := none, participant2Id := none, winnerId := none,
      score1 := none, score2 := none, status := .pending }
    (by decide) (by decide) (by decide) (by decide) (by decide) (by decide) (by decide)
    (by decide) (by decide) (by decide) (by decide) (by decide)
  exact ⟨⟨by decide, by decide⟩, h.2.1 (by decide)⟩

/-- Counterexample to C9: on the fixture bracket with its round-2 match
deleted, scoring a round-1 match does NOT fail: `updateScore` returns ok;
the missing destination is only reported on the error log
(`console.error('Next match not found')` followed by `return`). -/
theorem claim_C9_no_bracketCorruption_counterexample :
    (BracketService.updateScore 100 3 1 "2024-01-06" exMissingDest).1 = .ok () ∧
    (BracketService.updateScore 100 3 1 "2024-01-06" exMissingDest).2.errlog =
      ["Next match not found"] := by
  exact ⟨by rfl, by decide⟩

/-- C9 (amended): when the destination match of an advancement cannot be
found, `updateScore` does not raise any failure: `advanceWinner` logs
"Next match not found" and returns, leaving every match except the scored
one untouched, and `updateScore` completes normally.  Such a missing
destination cannot occur when the next round holds the
`participantCount / 2^(round+1)` matches that `generate` creates and the
scored match's number lies in its round's numbering block — and the
generation loop produces exactly those counts and numbering blocks. -/
theorem claim_C9_missing_destination
    (s : State) (matchId : Nat) (score1 score2 : Int) (today : String)
    (m : Match) (t : Tournament) (p1 p2 : Nat)
    (hm : s.findMatch matchId = some m)
    (hstat : m.status ≠ MStatus.pending)
    (hp1 : m.participant1Id = some p1) (hp2 : m.participant2Id = some p2)
    (hn1 : ¬score1 < 0) (hn2 : ¬score2 < 0) (hne : score1 ≠ score2)
    (ht : s.findTournament m.tournamentId = some t)
    (hlt : m.round < t.totalRounds) :
    (listGetInt
        (List.insertionSort matchNumberLE
          (s.«matches».filter (fun mm => mm.tournamentId == m.tournamentId &&
            mm.round == m.round + 1)))
        (Int.fdiv ((m.matchNumber : Int) -
          (BracketService.firstMatchNumberCore t.participantCount m.round : Int)) 2) = none →
      (BracketService.updateScore matchId score1 score2 today s).1 = .ok () ∧
      (BracketService.updateScore matchId score1 score2 today s).2.errlog =
        "Next match not found" :: s.errlog ∧
      (BracketService.updateScore matchId score1 score2 today s).2.«matches» =
        updateFirst (fun mm => mm.id == matchId)
          (fun mm => { mm with score1 := some score1, score2 := some score2,
                               winnerId := some (if score1 > score2 then p1 else p2),
                               status := .completed }) s.«matches») ∧
    ((s.«matches».filter (fun mm => mm.tournamentId == m.tournamentId &&
        mm.round == m.round + 1)).length = t.participantCount / 2 ^ (m.round + 1) →
      t.participantCount = 2 ^ t.totalRounds →
      BracketService.firstMatchNumberCore t.participantCount m.round ≤ m.matchNumber →
      m.matchNumber < BracketService.firstMatchNumberCore t.participantCount m.round +
        t.participantCount / 2 ^ m.round →
      listGetInt
        (List.insertionSort matchNumberLE
          (s.«matches».filter (fun mm => mm.tournamentId == m.tournamentId &&
            mm.round == m.round + 1)))
        (Int.fdiv ((m.matchNumber : Int) -
          (BracketService.firstMatchNumberCore t.participantCount m.round : Int)) 2) ≠ none) ∧
    (∀ tid k nid r, 1 ≤ r → r ≤ k →
      ((BracketService.generateLoop tid (2 ^ k) (List.range' 1 k) 1 nid).filter
        (fun mm => mm.round == r)).length = 2 ^ k / 2 ^ r ∧
      ∀ mm ∈ (BracketService.generateLoop tid (2 ^ k) (List.range' 1 k) 1 nid).filter
          (fun mm => mm.round == r),
        mm.tournamentId = tid ∧
        BracketService.firstMatchNumberCore (2 ^ k) r ≤ mm.matchNumber ∧
        mm.matchNumber < BracketService.firstMatchNumberCore (2 ^ k) r + 2 ^ k / 2 ^ r) := by
  refine ⟨?_, ?_, ?_⟩
  · intro hdnone
    have hspec := BracketService.updateScore_nonfinal_spec s matchId score1 score2 today
      m t p1 p2 hm hstat hp1 hp2 hn1 hn2 hne ht hlt
    have hmfind : s.«matches».find? (fun mm => mm.id == matchId) = some m := hm
    have hfilter : (updateFirst (fun mm => mm.id == matchId)
        (fun mm => { mm with score1 := some score1, score2 := some score2,
                             winnerId := some (if score1 > score2 then p1 else p2),
                             status := MStatus.completed }) s.«matches»).filter
          (fun mm => mm.tournamentId == m.tournamentId && mm.round == m.round + 1) =
        s.«matches».filter (fun mm => mm.tournamentId == m.tournamentId &&
          mm.round == m.round + 1) := by
      apply filter_updateFirst_of_ne _ _ _ hmfind
      · simp only [Bool.and_eq_false_iff]
        right
        simp only [beq_eq_false_iff_ne, ne_eq]
        omega
      · simp only [Bool.and_eq_false_iff]
        right
        simp only [beq_eq_false_iff_ne, ne_eq]
        omega
    have ht2 : (ParticipantService.eliminate (if score1 > score2 then p2 else p1) m.round
        (s.updMatch matchId (fun mm =>
          { mm with score1 := some score1, score2 := some score2,
                    winnerId := some (if score1 > score2 then p1 else p2),
                    status := MStatus.completed }))).findTournament m.tournamentId = some t := by
      simpa using ht
    have hadv := BracketService.advanceWinner_dest_none m
      (if score1 > score2 then p1 else p2)
      (ParticipantService.eliminate (if score1 > score2 then p2 else p1) m.round
        (s.updMatch matchId (fun mm =>
          { mm with score1 := some score1, score2 := some score2,
                    winnerId := some (if score1 > score2 then p1 else p2),
                    status := MStatus.completed }))) t ht2 (by omega)
      (by
        show listGetInt (List.insertionSort matchNumberLE
          ((updateFirst _ _ s.«matches»).filter _)) _ = none
        rw [hfilter]
        exact hdnone)
    refine ⟨hspec.1, ?_, ?_⟩
    · rw [hspec.2.2.2.2.1, hadv]
      rfl
    · rw [hspec.2.2.2.1, hadv]
      rfl
  · intro hcnt hpow hlo hhi
    have hge : (0 : Int) ≤ (m.matchNumber : Int) -
        (BracketService.firstMatchNumberCore t.participantCount m.round : Int) := by
      omega
    have hidx : (m.matchNumber : Int) -
        (BracketService.firstMatchNumberCore t.participantCount m.round : Int) =
        ((m.matchNumber - BracketService.firstMatchNumberCore t.participantCount m.round : Nat) :
          Int) := by
      omega
    rw [listGetInt, hidx]
    have hfdiv : Int.fdiv
        ((m.matchNumber - BracketService.firstMatchNumberCore t.participantCount m.round : Nat) :
          Int) 2 =
        (((m.matchNumber - BracketService.firstMatchNumberCore t.participantCount m.round) / 2 :
          Nat) : Int) :=
      (Int.ofNat_fdiv _ 2).symm
    rw [hfdiv]
    rw [if_neg (by omega)]
    have hhalf : t.participantCount / 2 ^ m.round =
        2 * (t.participantCount / 2 ^ (m.round + 1)) := by
      rw [hpow, Nat.pow_div (by omega) (by omega), Nat.pow_div (by omega) (by omega)]
      have h1 : t.totalRounds - m.round = (t.totalRounds - (m.round + 1)) + 1 := by omega
      rw [h1, Nat.pow_succ]
      omega
    have hlt2 : ((((m.matchNumber -
        BracketService.firstMatchNumberCore t.participantCount m.round) / 2 : Nat) :
          Int)).toNat <
        (List.insertionSort matchNumberLE
          (s.«matches».filter (fun mm => mm.tournamentId == m.tournamentId &&
            mm.round == m.round + 1))).length := by
      rw [List.length_insertionSort, hcnt, Int.toNat_ofNat]
      omega
    rw [List.getElem?_eq_getElem hlt2]
    simp
  · intro tid k nid r hr1 hrk
    have hblock := BracketService.generateLoop_filter_round tid (2 ^ k) k 1 1 nid r hr1
      (by omega)
    constructor
    · rw [hblock]
      simp
    · intro mm hmm
      rw [hblock] at hmm
      rcases List.mem_map.mp hmm with ⟨i, hi, rfl⟩
      rw [List.mem_range] at hi
      refine ⟨rfl, ?_, ?_⟩
      · show BracketService.firstMatchNumberCore (2 ^ k) r ≤
          1 + roundSizeSum (2 ^ k) 1 (r - 1) + i
        rw [BracketService.firstMatchNumberCore_eq]
        omega
      · show 1 + roundSizeSum (2 ^ k) 1 (r - 1) + i <
          BracketService.firstMatchNumberCore (2 ^ k) r + 2 ^ k / 2 ^ r
        rw [BracketService.firstMatchNumberCore_eq]
        omega

/-- Witness for C9: on the fixture with its round-2 match deleted,
scoring match 100 succeeds and only logs the missing destination. -/
theorem claim_C9_missing_destination_witness :
    (BracketService.updateScore 100 3 1 "2024-01-06" exMissingDest).2.errlog =
      "Next match not found" :: exMissingDest.errlog ∧
    (BracketService.updateScore 100 3 1 "2024-01-06" exMissingDest).2.«matches» =
      updateFirst (fun mm => mm.id == 100)
        (fun mm => { mm with score1 := some 3, score2 := some 1,
                             winnerId := some (if (3 : Int) > 1 then 11 else 14),
                             status := .completed }) exMissingDest.«matches» := by
  have h := claim_C9_missing_destination exMissingDest 100 3 1 "2024-01-06"
    { id := 100, tournamentId := 1, round := 1, matchNumber := 1,
      participant1Id := some 11, participant2Id := some 14, winnerId := none,
      score1 := none, score2 := none, status := .upcoming }
    { id := 1, participantCount := 4, totalRounds := 2, currentRound := 1,
      status := .registration, endDate := none }
    11 14 (by decide) (by decide) (by decide) (by decide) (by decide) (by decide)
    (by decide) (by decide) (by decide)
  have ha := h.1 (by decide)
  exact ⟨ha.2.1, ha.2.2⟩

/-- Helper: with pairwise-distinct keys in the list, `DB.update` by the key
of a member touches exactly that member. -/
theorem updateFirst_eq_map_of_nodup {g : α → Nat} (f : α → α) (k : Nat) :
    ∀ {l : List α}, (l.map g).Nodup →
      updateFirst (fun x => g x == k) f l = l.map (fun x => if g x = k then f x else x)
  | [], _ => rfl
  | x :: xs, hnd => by
    rw [List.map_cons, List.nodup_cons] at hnd
    rw [updateFirst, List.map_cons]
    by_cases hx : g x = k
    · rw [if_pos (by simpa using hx), if_pos hx]
      have hxs : xs.map (fun y => if g y = k then f y else y) = xs := by
        conv_rhs => rw [← List.map_id xs]
        apply List.map_congr_left
        intro y hy
        have hne : g y ≠ k := fun hy' =>
          hnd.1 (by rw [hx, ← hy']; exact List.mem_map_of_mem g hy)
        simp [hne]
      rw [hxs]
    · rw [if_neg (by simpa using hx), if_neg hx,
        updateFirst_eq_map_of_nodup f k hnd.2]

/-- Helper: folding key-by-key updates over pairwise-distinct keys equals a
single map that updates exactly the listed keys. -/
theorem foldl_updateFirst_keys {g : α → Nat} (f : α → α) (hf : ∀ a, g (f a) = g a) :
    ∀ (keys : List Nat) (l : List α), keys.Nodup → (l.map g).Nodup →
      keys.foldl (fun acc k => updateFirst (fun x => g x == k) f acc) l =
        l.map (fun x => if g x ∈ keys then f x else x)
  | [], l, _, _ => by
    simp
  | k :: ks, l, hknd, hlnd => by
    rw [List.nodup_cons] at hknd
    rw [List.foldl_cons, updateFirst_eq_map_of_nodup f k hlnd,
      foldl_updateFirst_keys f hf ks _ hknd.2 (by
        rw [List.map_map]
        have : (fun x => g (if g x = k then f x else x)) = g := by
          funext x
          by_cases hx : g x = k <;> simp [hx, hf]
        rw [Function.comp_def]
        simpa [this] using hlnd),
      List.map_map]
    apply List.map_congr_left
    intro x _
    simp only [Function.comp_apply]
    by_cases hx : g x = k
    · rw [if_pos hx]
      have hk : g (f x) = g x := hf x
      rw [if_neg (by rw [hk, hx]; exact hknd.1), if_pos (by simp [hx])]
    · rw [if_neg hx]
      by_cases hxk : g x ∈ ks
      · rw [if_pos hxk, if_pos (List.mem_cons_of_mem k hxk)]
      · rw [if_neg hxk, if_neg (by simp [hx, hxk])]

/-- Helper: the participant-restoration fold of `reset` viewed through each
state component. -/
theorem foldl_updParticipant_spec (f : Participant → Participant) :
    ∀ (ps : List Participant) (σ : State),
      (ps.foldl (fun st p => st.updParticipant p.id f) σ).participants =
        (ps.map (fun p => p.id)).foldl
          (fun acc k => updateFirst (fun x => x.id == k) f acc) σ.participants ∧
      (ps.foldl (fun st p => st.updParticipant p.id f) σ).tournaments = σ.tournaments ∧
      (ps.foldl (fun st p => st.updParticipant p.id f) σ).«matches» = σ.«matches» ∧
      (ps.foldl (fun st p => st.updParticipant p.id f) σ).results = σ.results ∧
      (ps.foldl (fun st p => st.updParticipant p.id f) σ).errlog = σ.errlog ∧
      (ps.foldl (fun st p => st.updParticipant p.id f) σ).nextId = σ.nextId
  | [], σ => ⟨rfl, rfl, rfl, rfl, rfl, rfl⟩
  | p :: ps, σ => by
    rw [List.foldl_cons, List.map_cons, List.foldl_cons]
    exact foldl_updParticipant_spec f ps (σ.updParticipant p.id f)

/-- Helper: looking a tournament up after `updTournament` unfolds to a
`find?` over the updated store. -/
theorem findTournament_updTournament (s : State) (i j : Nat)
    (f : Tournament → Tournament) :
    (s.updTournament i f).findTournament j =
      (updateFirst (fun u => u.id == i) f s.tournaments).find?
        (fun u => u.id == j) := rfl

/-- C10: on a tournament that is not `completed`, `reset` deletes all of
its Match and Result records, restores each of its participants to
`active` with `eliminatedAtRound` unset (all other participants
untouched), and returns the tournament to `draft` at `currentRound = 1`;
on a `completed` tournament it fails with CannotResetCompleted and
changes nothing. -/
theorem claim_C10_reset (s : State) (tournamentId : Nat) (t : Tournament)
    (ht : s.findTournament tournamentId = some t)
    (hnodup : (s.participants.map (fun p => p.id)).Nodup) :
    (t.status = TStatus.completed →
      BracketService.reset tournamentId s = (.error .cannotResetCompleted, s)) ∧
    (t.status ≠ TStatus.completed →
      (BracketService.reset tournamentId s).1 = .ok () ∧
      (BracketService.reset tournamentId s).2.«matches» =
        s.«matches».filter (fun mm => !(mm.tournamentId == tournamentId)) ∧
      (BracketService.reset tournamentId s).2.results =
        s.results.filter (fun rr => !(rr.tournamentId == tournamentId)) ∧
      (BracketService.reset tournamentId s).2.participants =
        s.participants.map (fun p =>
          if p.tournamentId = tournamentId
          then { p with status := .active, eliminatedAtRound := none } else p) ∧
      (BracketService.reset tournamentId s).2.findTournament tournamentId =
        some { t with status := .draft, currentRound := 1 }) := by
  constructor
  · intro hc
    rw [BracketService.reset, ht]
    simp [hc]
  · intro hc
    have hcb : (t.status == TStatus.completed) = false := by simpa using hc
    rw [BracketService.reset, ht]
    simp only [hcb, Bool.false_eq_true, if_false]
    refine ⟨trivial, ?_, ?_, ?_, ?_⟩
    · show (State.updTournament _ _ _).«matches» = _
      rw [updTournament_matches, (foldl_updParticipant_spec _ _ _).2.2.1]
    · show (State.updTournament _ _ _).results = _
      rw [updTournament_results, (foldl_updParticipant_spec _ _ _).2.2.2.1]
    · show (State.updTournament _ _ _).participants = _
      rw [updTournament_participants, (foldl_updParticipant_spec _ _ _).1]
      have hknd : ((List.insertionSort seedKeyLE (s.participants.filter
          (fun p => p.tournamentId == tournamentId))).map (fun p => p.id)).Nodup := by
        have hperm := List.perm_insertionSort seedKeyLE
          (s.participants.filter (fun p => p.tournamentId == tournamentId))
        have hsub : ((s.participants.filter
            (fun p => p.tournamentId == tournamentId)).map (fun p => p.id)).Nodup :=
          ((List.filter_sublist s.participants).map (fun p => p.id)).nodup hnodup
        exact ((hperm.map (fun p => p.id)).nodup_iff).mpr hsub
      have hkeys := @foldl_updateFirst_keys Participant (fun x => x.id)
        (fun q => { q with status := PStatus.active, eliminatedAtRound := none })
        (fun w => rfl)
        ((List.insertionSort seedKeyLE (s.participants.filter
          (fun p => p.tournamentId == tournamentId))).map (fun p => p.id))
        s.participants hknd hnodup
      refine hkeys.trans ?_
      apply List.map_congr_left
      intro x hx
      by_cases htid : x.tournamentId = tournamentId
      · rw [if_pos htid, if_pos]
        apply List.mem_map_of_mem
        rw [(List.perm_insertionSort seedKeyLE _).mem_iff]
        exact List.mem_filter.mpr ⟨hx, by simp [htid]⟩
      · rw [if_neg ?hnot, if_neg htid]
        case hnot =>
          intro hmem
          obtain ⟨y, hy, hyid⟩ := List.mem_map.mp hmem
          rw [(List.perm_insertionSort seedKeyLE _).mem_iff] at hy
          have hy2 := List.mem_filter.mp hy
          have hxy : y = x := List.inj_on_of_nodup_map hnodup hy2.1 hx hyid
          rw [hxy] at hy2
          exact htid (by simpa using hy2.2)
    · show (State.updTournament _ _ _).findTournament _ = _
      rw [findTournament_updTournament, (foldl_updParticipant_spec _ _ _).2.1]
      exact find?_updateFirst_self _ _ ht (by simpa using List.find?_some ht)

/-- Witness for C10: resetting the N=4 fixture after two round-1 results
succeeds, wipes its matches and results, reactivates its participants, and
returns the tournament to `draft` at round 1. -/
theorem claim_C10_reset_witness :
    (BracketService.reset 1 exAfterM2).1 = .ok () ∧
    (BracketService.reset 1 exAfterM2).2.«matches» =
      exAfterM2.«matches».filter (fun mm => !(mm.tournamentId == 1)) ∧
    (BracketService.reset 1 exAfterM2).2.results =
      exAfterM2.results.filter (fun rr => !(rr.tournamentId == 1)) ∧
    (BracketService.reset 1 exAfterM2).2.participants =
      exAfterM2.participants.map (fun p =>
        if p.tournamentId = 1
        then { p with status := .active, eliminatedAtRound := none } else p) ∧
    (BracketService.reset 1 exAfterM2).2.findTournament 1 =
      some { id := 1, participantCount := 4, totalRounds := 2, currentRound := 1,
             status := TStatus.draft, endDate := none } := by
  have h := (claim_C10_reset exAfterM2 1
    { id := 1, participantCount := 4, totalRounds := 2, currentRound := 2,
      status := TStatus.registration, endDate := none } rfl (by decide)).2 (by decide)
  exact ⟨h.1, h.2.1, h.2.2.1, h.2.2.2.1, h.2.2.2.2⟩

/-- Helper: in a match list with pairwise-distinct ids, entries at distinct
indices have distinct ids. -/
theorem match_ids_ne_of_idx_ne (frm : List Match)
    (hnd : (frm.map (fun m => m.id)).Nodup)
    {k i : Nat} {a b : Match} (hk : frm[k]? = some a) (hi : frm[i]? = some b)
    (hki : k ≠ i) : a.id ≠ b.id := by
  intro hid
  apply hki
  have h1 : (frm.map (fun m => m.id))[k]? = some a.id := by
    rw [List.getElem?_map, hk]; rfl
  have h2 : (frm.map (fun m => m.id))[i]? = some b.id := by
    rw [List.getElem?_map, hi]; rfl
  have hk' : k < (frm.map (fun m => m.id)).length := by
    rw [List.length_map]
    exact (List.getElem?_eq_some_iff.mp hk).1
  exact List.getElem?_inj hk' hnd (by rw [h1, h2, hid])

/-- Helper: the participant-assignment loop never touches a match whose id
differs from the id of every first-round match at index ≥ i. -/
theorem assignLoop_findMatch_of_ne (frm : List Match) :
    ∀ (ps : List (Participant × Participant)) (i : Nat) (st : State) (mid : Nat),
      (∀ k fm, frm[k]? = some fm → i ≤ k → fm.id ≠ mid) →
      (BracketService.assignLoop frm ps i st).findMatch mid = st.findMatch mid
  | [], _, _, _, _ => rfl
  | _ :: rest, i, st, mid, h => by
    rw [BracketService.assignLoop]
    cases hfi : frm[i]? with
    | none =>
      simp only [hfi]
      exact assignLoop_findMatch_of_ne frm rest (i + 1) st mid
        (fun k fm hk hik => h k fm hk (by omega))
    | some fm₀ =>
      simp only [hfi]
      rw [assignLoop_findMatch_of_ne frm rest (i + 1) _ mid
        (fun k fm hk hik => h k fm hk (by omega))]
      have hne : fm₀.id ≠ mid := h i fm₀ hfi (Nat.le_refl i)
      show (updateFirst (fun m => m.id == fm₀.id) _ st.«matches»).find?
        (fun m => m.id == mid) = st.«matches».find? (fun m => m.id == mid)
      cases hf : st.«matches».find? (fun m => m.id == fm₀.id) with
      | none => rw [updateFirst_of_find?_eq_none _ _ hf]
      | some a =>
        have ha : a.id = fm₀.id := by simpa using List.find?_some hf
        have hq : (a.id == mid) = false := by
          simp only [beq_eq_false_iff_ne, ne_eq]
          rw [ha]; exact hne
        exact find?_updateFirst_of_ne _ _ _ hf hq hq

/-- Helper: the participant-assignment loop writes pair `j` into the match
at index `i + j` of the (id-distinct) first-round match list, provided
every such match is findable in the incoming state. -/
theorem assignLoop_findMatch_hit (frm : List Match)
    (hnd : (frm.map (fun m => m.id)).Nodup) :
    ∀ (ps : List (Participant × Participant)) (i : Nat) (st : State),
      (∀ k fm, frm[k]? = some fm → i ≤ k → st.findMatch fm.id = some fm) →
      ∀ j pr fm, ps[j]? = some pr → frm[i + j]? = some fm →
        (BracketService.assignLoop frm ps i st).findMatch fm.id =
          some { fm with participant1Id := some pr.1.id,
                         participant2Id := some pr.2.id,
                         status := MStatus.upcoming }
  | [], _, _, _, j, _, _, hj, _ => by simp at hj
  | pr₀ :: rest, i, st, hpre, j, pr, fm, hj, hf => by
    cases j with
    | zero =>
      have hpr : pr₀ = pr := by simpa using hj
      have hfi : frm[i]? = some fm := by simpa using hf
      subst hpr
      rw [BracketService.assignLoop]
      simp only [hfi]
      rw [assignLoop_findMatch_of_ne frm rest (i + 1) _ fm.id
        (fun k fm' hk hik => match_ids_ne_of_idx_ne frm hnd hk hfi (by omega))]
      have hstf : st.findMatch fm.id = some fm := hpre i fm hfi (Nat.le_refl i)
      show (updateFirst (fun m => m.id == fm.id) _ st.«matches»).find?
        (fun m => m.id == fm.id) = _
      exact find?_updateFirst_self _ _ hstf (by simp)
    | succ j' =>
      have hj' : rest[j']? = some pr := by simpa using hj
      have hf' : frm[(i + 1) + j']? = some fm := by
        rw [show i + 1 + j' = i + (j' + 1) by omega]; exact hf
      rw [BracketService.assignLoop]
      cases hfi : frm[i]? with
      | none =>
        simp only [hfi]
        exact assignLoop_findMatch_hit frm hnd rest (i + 1) st
          (fun k fm' hk hik => hpre k fm' hk (by omega)) j' pr fm hj' hf'
      | some fm₀ =>
        simp only [hfi]
        refine assignLoop_findMatch_hit frm hnd rest (i + 1) _ ?_ j' pr fm hj' hf'
        intro k fm' hk hik
        have hne : fm₀.id ≠ fm'.id :=
          match_ids_ne_of_idx_ne frm hnd hfi hk (by omega)
        have hstf' := hpre k fm' hk (by omega)
        have hst0 : st.findMatch fm₀.id = some fm₀ := hpre i fm₀ hfi (Nat.le_refl i)
        have hq : (fm₀.id == fm'.id) = false := by
          simp only [beq_eq_false_iff_ne, ne_eq]; exact hne
        show (updateFirst (fun m => m.id == fm₀.id) _ st.«matches»).find?
          (fun m => m.id == fm'.id) = some fm'
        rw [find?_updateFirst_of_ne _ _ _ hst0 hq hq]
        exact hstf'

/-- C3: when the roster size matches `participantCount`,
`assignParticipants` succeeds; it sorts the roster with seeded entries
first by ascending seed and unseeded entries after them in their stored
relative order, forms pair `i = (p[i], p[n-1-i])` for `i = 0 .. n/2 - 1`
over the sorted list `p`, writes pair `i` into the `i`-th round-1 match
(ordered ascending by `matchNumber`) as `participant1`/`participant2`
and marks it `upcoming`; and when the seeds are exactly `1..N`, pair `i`
pairs seed `i+1` with seed `N-i`. -/
theorem claim_C3_assignParticipants (s : State) (tournamentId : Nat) (t : Tournament)
    (roster sorted : List Participant) (pairs : List (Participant × Participant))
    (frm : List Match) (sFin : State)
    (ht : s.findTournament tournamentId = some t)
    (hroster : roster = ParticipantService.getByTournament s tournamentId)
    (hlen : roster.length = t.participantCount)
    (hmids : (s.«matches».map (fun m => m.id)).Nodup)
    (hsorted : sorted = List.insertionSort seedCmpLE roster)
    (hpairs : pairs = BracketService.createSeedPairings sorted)
    (hfrm : frm = List.insertionSort matchNumberLE
      (s.«matches».filter (fun m => m.tournamentId == tournamentId && m.round == 1)))
    (hsFin : sFin = BracketService.assignLoop frm pairs 0 s) :
    BracketService.assignParticipants tournamentId s =
      (.ok (sFin.«matches».filter
        (fun m => m.tournamentId == tournamentId && m.round == 1)), sFin) ∧
    List.Perm sorted roster ∧
    sorted.Pairwise (fun a b =>
      (seedTruthy b.seed = true → seedTruthy a.seed = true) ∧
      (seedTruthy a.seed = true → seedTruthy b.seed = true →
        a.seed.getD 0 ≤ b.seed.getD 0)) ∧
    sorted.filter (fun p => !seedTruthy p.seed) =
      roster.filter (fun p => !seedTruthy p.seed) ∧
    frm.Pairwise matchNumberLE ∧
    pairs.length = sorted.length / 2 ∧
    (∀ i, i < sorted.length / 2 →
      ∃ a b, sorted[i]? = some a ∧ sorted[sorted.length - 1 - i]? = some b ∧
        pairs[i]? = some (a, b)) ∧
    (∀ (i : Nat) (pr : Participant × Participant) (fm : Match),
      pairs[i]? = some pr → frm[i]? = some fm →
      sFin.findMatch fm.id =
        some { fm with participant1Id := some pr.1.id,
                       participant2Id := some pr.2.id,
                       status := MStatus.upcoming }) ∧
    (List.Perm (roster.map (fun p => p.seed))
        ((List.range' 1 t.participantCount).map (fun (j : Nat) => some (j : Int))) →
      ∀ (i : Nat) (pr : Participant × Participant), pairs[i]? = some pr →
        pr.1.seed = some ((i : Int) + 1) ∧
        pr.2.seed = some ((t.participantCount : Int) - (i : Int))) := by
  have hperm_sorted : List.Perm sorted roster := by
    rw [hsorted]; exact List.perm_insertionSort seedCmpLE roster
  have hpw_sorted : sorted.Pairwise seedCmpLE := by
    rw [hsorted]; exact List.sorted_insertionSort seedCmpLE roster
  have hplen : pairs.length = sorted.length / 2 := by
    rw [hpairs]; simp [BracketService.createSeedPairings]
  have hentry : ∀ i, i < sorted.length / 2 →
      pairs[i]? = some
        (sorted.getD i { id := 0, tournamentId := 0, seed := none,
                         status := .active, eliminatedAtRound := none },
         sorted.getD (sorted.length - 1 - i)
           { id := 0, tournamentId := 0, seed := none,
             status := .active, eliminatedAtRound := none }) := by
    intro i hi
    rw [hpairs, BracketService.createSeedPairings]
    simp [List.getElem?_range, hi]
  refine ⟨?_, hperm_sorted, ?_, ?_, ?_, hplen, ?_, ?_, ?_⟩
  · -- the call succeeds and returns the assigned state
    subst hsFin hpairs hfrm hsorted hroster
    rw [BracketService.assignParticipants]
    simp only [ht]
    rw [if_neg (by simp [hlen])]
  · -- seeded-first sortedness of the sorted roster
    refine List.Pairwise.imp ?_ hpw_sorted
    intro a b hab
    unfold seedCmpLE at hab
    constructor
    · intro hb
      by_cases ha : seedTruthy a.seed
      · exact ha
      · simp [ha, hb] at hab
    · intro ha hb
      simpa [ha, hb] using hab
  · -- unseeded entries keep their stored relative order
    have hq : ∀ a ∈ roster.filter (fun p => !seedTruthy p.seed),
        (!seedTruthy a.seed) = true := fun a ha => (List.mem_filter.mp ha).2
    have hpw : (roster.filter (fun p => !seedTruthy p.seed)).Pairwise seedCmpLE := by
      apply List.pairwise_of_forall_mem_list
      intro a ha b hb
      have ha' := (List.mem_filter.mp ha).2
      have hb' := (List.mem_filter.mp hb).2
      simp only [Bool.not_eq_true'] at ha' hb'
      unfold seedCmpLE
      simp [ha', hb']
    have hsubl : List.Sublist (roster.filter (fun p => !seedTruthy p.seed)) sorted := by
      rw [hsorted]
      exact List.sublist_insertionSort hpw (List.filter_sublist roster)
    have h3 := hsubl.filter (fun p => !seedTruthy p.seed)
    rw [List.filter_eq_self.mpr hq] at h3
    have hlen2 : (sorted.filter (fun p => !seedTruthy p.seed)).length =
        (roster.filter (fun p => !seedTruthy p.seed)).length :=
      (hperm_sorted.filter (fun p => !seedTruthy p.seed)).length_eq
    exact (h3.eq_of_length hlen2.symm).symm
  · -- first-round matches are in ascending matchNumber order
    rw [hfrm]
    exact List.sorted_insertionSort matchNumberLE _
  · -- pair i is (p[i], p[n-1-i])
    intro i hi
    have hi1 : i < sorted.length := Nat.lt_of_lt_of_le hi (Nat.div_le_self _ _)
    have hi2 : sorted.length - 1 - i < sorted.length := by omega
    refine ⟨sorted.get ⟨i, hi1⟩, sorted.get ⟨sorted.length - 1 - i, hi2⟩, ?_, ?_, ?_⟩
    · simp [List.getElem?_eq_getElem, hi1]
    · simp [List.getElem?_eq_getElem, hi2]
    · rw [hentry i hi]
      congr 1
      congr 1 <;>
        simp [List.getD_eq_getElem?_getD, List.getElem?_eq_getElem, hi1, hi2]
  · -- each pair is written into its first-round match and marked upcoming
    intro i pr fm hpi hfi
    subst hsFin
    have hfrm_nd : (frm.map (fun m => m.id)).Nodup := by
      rw [hfrm]
      have hperm := List.perm_insertionSort matchNumberLE
        (s.«matches».filter (fun m => m.tournamentId == tournamentId && m.round == 1))
      have hsub : ((s.«matches».filter
          (fun m => m.tournamentId == tournamentId && m.round == 1)).map
            (fun m => m.id)).Nodup :=
        ((List.filter_sublist s.«matches»).map (fun m => m.id)).nodup hmids
      exact ((hperm.map (fun m => m.id)).nodup_iff).mpr hsub
    have hpre : ∀ k fm', frm[k]? = some fm' → 0 ≤ k →
        s.findMatch fm'.id = some fm' := by
      intro k fm' hk _
      have hmem : fm' ∈ frm := List.getElem?_mem hk
      rw [hfrm] at hmem
      rw [(List.perm_insertionSort matchNumberLE _).mem_iff] at hmem
      have hmem2 : fm' ∈ s.«matches» := (List.mem_filter.mp hmem).1
      exact @find?_of_nodup_key _ (fun mm => mm.id) _ _ hmids hmem2
    exact assignLoop_findMatch_hit frm hfrm_nd pairs 0 s hpre i pr fm hpi
      (by simpa using hfi)
  · -- seeds 1..N pair as (i+1, N-i)
    intro hperm i pr hpi
    have hN : sorted.length = t.participantCount := by
      rw [hperm_sorted.length_eq]; exact hlen
    have hilt : i < sorted.length / 2 := by
      have h1 := (List.getElem?_eq_some_iff.mp hpi).1
      rw [hplen] at h1; exact h1
    have hiN : i < sorted.length := Nat.lt_of_lt_of_le hilt (Nat.div_le_self _ _)
    have hi2N : sorted.length - 1 - i < sorted.length := by omega
    have hsp : List.Perm (sorted.map (fun p => p.seed))
        ((List.range' 1 t.participantCount).map (fun (j : Nat) => some (j : Int))) :=
      (hperm_sorted.map (fun p => p.seed)).trans hperm
    have htruthy : ∀ p ∈ sorted, ∃ j : Nat,
        1 ≤ j ∧ j ≤ t.participantCount ∧ p.seed = some (j : Int) := by
      intro p hp
      have hmm : p.seed ∈ (List.range' 1 t.participantCount).map
          (fun (j : Nat) => some (j : Int)) :=
        hsp.mem_iff.mp (List.mem_map_of_mem _ hp)
      obtain ⟨j, hj, hje⟩ := List.mem_map.mp hmm
      have hjr := List.mem_range'_1.mp hj
      exact ⟨j, hjr.1, by omega, hje.symm⟩
    have hkey : sorted.map (fun p => p.seed.getD 0) =
        (List.range' 1 t.participantCount).map (fun (j : Nat) => (j : Int)) := by
      refine @List.eq_of_perm_of_sorted Int (fun x y : Int => x ≤ y) _ _ _ ?_ ?_ ?_
      · have h1 := hsp.map (fun o => o.getD (0 : Int))
        simpa [List.map_map, Function.comp] using h1
      · show List.Pairwise (fun x y : Int => x ≤ y)
          (sorted.map (fun p => p.seed.getD 0))
        rw [List.pairwise_map]
        refine List.Pairwise.imp_of_mem ?_ hpw_sorted
        intro a b ha hb hab
        obtain ⟨ja, hja1, _, hja2⟩ := htruthy a ha
        obtain ⟨jb, hjb1, _, hjb2⟩ := htruthy b hb
        have hta : seedTruthy a.seed = true := by
          rw [hja2]; simp [seedTruthy]; omega
        have htb : seedTruthy b.seed = true := by
          rw [hjb2]; simp [seedTruthy]; omega
        unfold seedCmpLE at hab
        simpa [hta, htb] using hab
      · show List.Pairwise (fun x y : Int => x ≤ y)
          ((List.range' 1 t.participantCount).map (fun (j : Nat) => (j : Int)))
        exact List.Pairwise.map _ (fun a b h => by exact_mod_cast h)
          (List.pairwise_le_range' 1 t.participantCount)
    have hentry2 : ∀ k, (hkN : k < sorted.length) →
        (sorted.get ⟨k, hkN⟩).seed = some (((1 + k : Nat) : Int)) := by
      intro k hkN
      have h1 : (sorted.map (fun p => p.seed.getD 0))[k]? =
          some ((sorted.get ⟨k, hkN⟩).seed.getD 0) := by
        simp [List.getElem?_eq_getElem, hkN]
      rw [hkey] at h1
      have hkN' : k < t.participantCount := by omega
      rw [List.getElem?_map, List.getElem?_range' 1 1 hkN'] at h1
      simp only [Option.map_some'] at h1
      have h2 := Option.some.inj h1
      obtain ⟨j, hj1, hj2, hj3⟩ := htruthy _ (List.get_mem sorted k hkN)
      rw [hj3] at h2 ⊢
      simp only [Option.getD_some] at h2
      have hji : (j : Int) = ((1 + k : Nat) : Int) := by omega
      rw [hji]
    have hpr : pr = (sorted.get ⟨i, hiN⟩,
        sorted.get ⟨sorted.length - 1 - i, hi2N⟩) := by
      have h0 := hentry i hilt
      rw [hpi] at h0
      have h1 := Option.some.inj h0
      rw [h1]
      congr 1 <;>
        simp [List.getD_eq_getElem?_getD, List.getElem?_eq_getElem, hiN, hi2N]
    constructor
    · simp only [hpr]
      rw [hentry2 i hiN]
      congr 1
      omega
    · simp only [hpr]
      rw [hentry2 _ hi2N]
      congr 1
      omega

/-- Witness for C3 at the N=4 fixture: in the registration-stage bracket,
`assignParticipants` pairs seed 1 with seed 4 in match 100 and seed 2 with
seed 3 in match 101, both marked `upcoming`. -/
theorem claim_C3_assignParticipants_witness :
    (BracketService.assignParticipants 1 exRegistration).2.findMatch 100 =
      some { id := 100, tournamentId := 1, round := 1, matchNumber := 1,
             participant1Id := some 11, participant2Id := some 14,
             winnerId := none, score1 := none, score2 := none,
             status := MStatus.upcoming } ∧
    (BracketService.assignParticipants 1 exRegistration).2.findMatch 101 =
      some { id := 101, tournamentId := 1, round := 1, matchNumber := 2,
             participant1Id := some 12, participant2Id := some 13,
             winnerId := none, score1 := none, score2 := none,
             status := MStatus.upcoming } := by
  have h := claim_C3_assignParticipants exRegistration 1
      { id := 1, participantCount := 4, totalRounds := 2, currentRound := 1,
        status := .registration, endDate := none }
      _ _ _ _ _ rfl rfl (by decide) (by decide) rfl rfl rfl rfl
  obtain ⟨h1, -, -, -, -, -, -, h8, -⟩ := h
  have hs2 := congrArg Prod.snd h1
  refine ⟨?_, ?_⟩
  · rw [hs2]
    exact h8 0 _ _ rfl rfl
  · rw [hs2]
    exact h8 1 _ _ rfl rfl
